import Mathlib

/-!
Verification development for the tax-rag-agent repository.

The file embeds the ingestion pipeline (`IngestionService.processUrlForIngestion`
and its helpers) and the chat/query pipeline
(`ChatService.sendMessageAndStreamResponse`) as executable Lean functions over
explicit environments that stand for the external collaborators (vector store,
embedding model, generative model, browser and PDF fetchers).  Theorems below
settle the spec claims against these embeddings.

Conventions:
* JavaScript strings that are inspected character by character (document text,
  chunks) are `List Char` (`Str`); identifier-like strings (urls, ids, titles,
  messages) are Lean `String`.
* JavaScript `null`/`undefined` is `Option.none`; JS truthiness of strings
  (empty string is falsy) is made explicit by `jsTruthy*` helpers.
* Fallible external calls are `Except String _` values supplied by the
  environment; a thrown JS exception is the `.error` case carrying its message.
-/

namespace TaxRag

/-- Character-list view of a JS string. -/
abbrev Str := List Char

/-- Whitespace, as consumed by `String.prototype.trim` on the inputs we model. -/
def ws (c : Char) : Bool :=
  c = ' ' || c = '\t' || c = '\r' || c = '\n'

/-- JS `text.trim()`: drop whitespace from both ends. -/
def trim (s : Str) : Str :=
  ((s.dropWhile ws).reverse.dropWhile ws).reverse

/-- JS `text.includes(s)` on character lists. -/
def isSubstr (pat : Str) : Str → Bool
  | [] => pat.isEmpty
  | c :: rest => pat.isPrefixOf (c :: rest) || isSubstr pat rest

/-- Lookahead split `text.split(regex-lookahead(sep))`: a new segment starts at
every position (other than 0) where `sep` matches.  Worker for `splitKeep`. -/
def splitKeepGo (sep : Str) : Str → Str → List Str
  | [], seg => [seg.reverse]
  | c :: rest, seg =>
    if seg ≠ [] ∧ sep.isPrefixOf (c :: rest) then
      seg.reverse :: splitKeepGo sep rest [c]
    else
      splitKeepGo sep rest (c :: seg)

/-- Model of `TextSplitter.splitOnSeparator` in keep-separator mode, before the
non-empty filter. -/
def splitKeep (sep : Str) (t : Str) : List Str :=
  splitKeepGo sep t []

/-- Plain `text.split(sep)` (separator dropped), before the non-empty filter. -/
def splitPlainGo (sep : Str) (t : Str) (seg : Str) : List Str :=
  match t with
  | [] => [seg.reverse]
  | c :: rest =>
    if sep.isPrefixOf (c :: rest) ∧ sep ≠ [] then
      seg.reverse :: splitPlainGo sep (rest.drop (sep.length - 1)) []
    else
      splitPlainGo sep rest (c :: seg)
termination_by t.length
decreasing_by
  · simp only [List.length_cons, List.length_drop]
    omega
  · simp only [List.length_cons]
    omega

/-- Model of `TextSplitter.splitOnSeparator(text, separator)`: split (keeping the
separator in keep-separator mode), then filter out empty segments. -/
def splitOnSeparator (keepSep : Bool) (sep : Str) (text : Str) : List Str :=
  let splits :=
    if sep.isEmpty then
      text.map (fun c => [c])
    else if keepSep then
      splitKeep sep text
    else
      splitPlainGo sep text []
  splits.filter (fun s => !s.isEmpty)

/-- The separator-selection loop at the top of
`RecursiveCharacterTextSplitter._splitText`: scan the separator list, breaking
at the first empty separator (no further recursion) or the first separator
contained in the text (recurse on the remaining separators); default to the
last separator when the scan is exhausted. -/
def chooseSepGo (dflt : Str) (text : Str) : List Str → Str × Option (List Str)
  | [] => (dflt, none)
  | s :: rest =>
    if s.isEmpty then ([], none)
    else if isSubstr s text then (s, some rest)
    else chooseSepGo dflt text rest

def chooseSep (seps : List Str) (text : Str) : Str × Option (List Str) :=
  chooseSepGo ((seps.getLast?).getD []) text seps

/-- Total length of a list of segments. -/
def sumLen (l : List Str) : Nat := (l.map List.length).sum

/-- Model of `TextSplitter.joinDocs`: join with the separator, trim, drop if empty. -/
def joinDocs (docs : List Str) (sep : Str) : Option Str :=
  if (trim (List.intercalate sep docs)).isEmpty then none
  else some (trim (List.intercalate sep docs))

/-- The popping `while` loop inside `TextSplitter.mergeSplits`: shift segments
off the front while the running total exceeds the overlap, or while the next
segment would not fit.  (With the loop invariant `total = sumLen doc`, the
empty-document case is unreachable in the source; we return the state
unchanged there.) -/
def popLoop (cs co sepLen dLen : Nat) : List Str → Nat → List Str × Nat
  | [], total => ([], total)
  | h :: rest, total =>
    if total > co ∨ (total + dLen + (h :: rest).length * sepLen > cs ∧ total > 0) then
      popLoop cs co sepLen dLen rest (total - h.length)
    else (h :: rest, total)

/-- The accumulation loop of `TextSplitter.mergeSplits`: arguments are the
remaining splits, the current window `doc` and its running total. -/
def mergeLoop (cs co : Nat) (sep : Str) : List Str → List Str → Nat → List Str
  | [], doc, _total => (joinDocs doc sep).toList
  | d :: rest, doc, total =>
    if total + d.length + doc.length * sep.length > cs then
      if doc.isEmpty then
        mergeLoop cs co sep rest [d] d.length
      else
        (joinDocs doc sep).toList ++
          mergeLoop cs co sep rest ((popLoop cs co sep.length d.length doc total).1 ++ [d])
            ((popLoop cs co sep.length d.length doc total).2 + d.length)
    else
      mergeLoop cs co sep rest (doc ++ [d]) (total + d.length)

/-- Model of `TextSplitter.mergeSplits(splits, separator)`. -/
def mergeSplits (cs co : Nat) (splits : List Str) (sep : Str) : List Str :=
  mergeLoop cs co sep splits [] 0

/-- Instrumented variant of `mergeLoop` that returns the split windows the
emitted chunks are joined from (including windows that `joinDocs` later drops
as whitespace-only).  Used to state the overlap bound. -/
def mergeLoopW (cs co : Nat) (sep : Str) : List Str → List Str → Nat → List (List Str)
  | [], doc, _total => [doc]
  | d :: rest, doc, total =>
    if total + d.length + doc.length * sep.length > cs then
      if doc.isEmpty then
        mergeLoopW cs co sep rest [d] d.length
      else
        doc :: mergeLoopW cs co sep rest ((popLoop cs co sep.length d.length doc total).1 ++ [d])
          ((popLoop cs co sep.length d.length doc total).2 + d.length)
    else
      mergeLoopW cs co sep rest (doc ++ [d]) (total + d.length)

/-- Instrumented companion of `mergeLoopW` that records, at each flush, the
splits the popping while-loop of `mergeSplits` retains in `currentDoc`: the
actual overlap region carried from the flushed window into the next window
(one entry per pair of consecutive windows). -/
def mergeLoopC (cs co : Nat) (sep : Str) : List Str → List Str → Nat → List (List Str)
  | [], _doc, _total => []
  | d :: rest, doc, total =>
    if total + d.length + doc.length * sep.length > cs then
      if doc.isEmpty then
        mergeLoopC cs co sep rest [d] d.length
      else
        (popLoop cs co sep.length d.length doc total).1 ::
          mergeLoopC cs co sep rest ((popLoop cs co sep.length d.length doc total).1 ++ [d])
            ((popLoop cs co sep.length d.length doc total).2 + d.length)
    else
      mergeLoopC cs co sep rest (doc ++ [d]) (total + d.length)

/-- The loop over splits inside `RecursiveCharacterTextSplitter._splitText`:
buffer splits shorter than the chunk size, flushing the buffer through
`mergeSplits` whenever a long split is met (the long split itself is handled
by `handleBig`: pushed verbatim when there are no further separators,
otherwise split recursively). -/
def splitLoop (cs : Nat) (handleBig : Str → List Str) (mergeGood : List Str → List Str) :
    List Str → List Str → List Str
  | [], good => if good.isEmpty then [] else mergeGood good
  | s :: rest, good =>
    if s.length < cs then
      splitLoop cs handleBig mergeGood rest (good ++ [s])
    else
      (if good.isEmpty then [] else mergeGood good) ++ handleBig s ++
        splitLoop cs handleBig mergeGood rest []

/-- Model of `RecursiveCharacterTextSplitter._splitText(text, separators)`.  The
recursion always strictly shrinks the separator list, so a fuel of
`separators.length + 1` makes the fuel-free behaviour total; the fuel-0 branch
is unreachable for the instantiation used by `chunkText`. -/
def splitTextFuel (cs co : Nat) (keepSep : Bool) : Nat → List Str → Str → List Str
  | 0, _, _ => []
  | fuel + 1, seps, text =>
    splitLoop cs
      (fun s =>
        match (chooseSep seps text).2 with
        | none => [s]
        | some newSeps => splitTextFuel cs co keepSep fuel newSeps s)
      (fun gs => mergeSplits cs co gs (if keepSep then [] else (chooseSep seps text).1))
      (splitOnSeparator keepSep (chooseSep seps text).1 text) []

/-- Default separators of `RecursiveCharacterTextSplitter`. -/
def defaultSeparators : List Str := [['\n', '\n'], ['\n'], [' '], []]

/-- The `chunkSize: 1000` of `IngestionService.chunkText`. -/
def chunkSize : Nat := 1000

/-- The `chunkOverlap: 200` of `IngestionService.chunkText`. -/
def chunkOverlap : Nat := 200

/-- Model of `IngestionService.chunkText`: empty or whitespace-only text yields no
chunks; otherwise split with a `RecursiveCharacterTextSplitter` (chunk size
1000, overlap 200, default separators, keep-separator mode). -/
def chunkText (text : Str) : List Str :=
  if text.isEmpty ∨ trim text = [] then []
  else splitTextFuel chunkSize chunkOverlap true (defaultSeparators.length + 1) defaultSeparators text

/-- A segment containing at least one non-whitespace character. -/
def hasNW (s : Str) : Prop := ∃ c ∈ s, ws c = false

/-! ### Weaviate store objects -/

/-- A property value as written to / read from the vector store. -/
inductive PropValue where
  | str : String → PropValue
  | txt : Str → PropValue
  | beacons : List String → PropValue
  deriving DecidableEq, Repr

/-- A JS properties object: ordered key/value pairs. -/
abbrev Props := List (String × PropValue)

structure StoredObject where
  id : String
  properties : Props
  deriving DecidableEq, Repr

/-- Reading field `k` of a stored object (undefined when absent). -/
def getField (o : StoredObject) (k : String) : Option PropValue :=
  o.properties.lookup k

/-- Property names of the `DocChunk` class declared by
`WeaviateService.initializeSchema`. -/
def docChunkSchemaPropertyNames : List String :=
  ["chunkId", "docId", "chunkIndex", "text", "embedding", "createdAt"]

/-- The `chunkProperties` object built for each chunk in
`IngestionService.processUrlForIngestion`. -/
def mkChunkProperties (chunkId rawDocId jobId : String) (chunkTxt : Str)
    (url docTitle : String) : Props :=
  [("chunkId", .str chunkId),
   ("docId", .beacons ["weaviate://localhost/RawDoc/" ++ rawDocId]),
   ("jobId", .beacons ["weaviate://localhost/IngestJob/" ++ jobId]),
   ("text", .txt chunkTxt),
   ("url", .str url),
   ("docTitle", .str docTitle)]

/-! ### Ingestion pipeline (`IngestionService` / `IngestionProcessor`) -/

/-- An embedding vector (its numeric contents are opaque to the code under
study, so entries are modelled as integers). -/
abbrev Vec := List Int

/-- Result fields of the article object returned by `fetchHtmlContent`. -/
structure ArticleData where
  content : Option Str
  title : Option String
  url : Option String
  deriving Repr

/-- JS truthiness of a nullable text value (null and empty are falsy). -/
def jsTruthyTxt : Option Str → Bool
  | none => false
  | some s => !s.isEmpty

/-- JS truthiness of a nullable string (null and empty are falsy). -/
def jsTruthyStr : Option String → Bool
  | none => false
  | some s => !s.isEmpty

/-- JS `s || dflt` on strings. -/
def jsOrStr (s dflt : String) : String := if s = "" then dflt else s

/-- Environment of one `processUrlForIngestion` run: the outcomes of every
external call it makes, in program order.  Store writes either acknowledge
(`.ok`) or throw with a message (`.error`). -/
structure IngestEnv where
  pdfContent : Option Str
  htmlArticle : Option ArticleData
  apiKey : Bool
  embedDocumentsResult : Except String (List Vec)
  updProcessing : Except String Unit
  createRawDoc : Except String Unit
  chunkCreate : Nat → Except String Unit
  updNoContent : Except String Unit
  updNoChunks : Except String Unit
  updEmbedFail : Except String Unit
  updCompleted : Except String Unit
  updCatch : Except String Unit
  rawDocId : String
  chunkIdOf : Nat → String
  freshIdOf : Nat → String

/-- One acknowledged merge into the `IngestJob` record. -/
structure JobUpdate where
  status : String
  errorMessage : Option String
  deriving DecidableEq, Repr

structure RawDocRecord where
  docId : String
  jobId : String
  sourceUrl : String
  title : String
  deriving DecidableEq, Repr

/-- One acknowledged `DocChunk` create (properties plus supplied vector). -/
structure ChunkWrite where
  id : String
  properties : Props
  vector : Vec
  deriving DecidableEq, Repr

/-- Observable outcome of a `processUrlForIngestion` run: whether it returned
or threw, plus the acknowledged store writes. -/
structure IngestOutcome where
  result : Except String Unit
  jobUpdates : List JobUpdate
  rawDocs : List RawDocRecord
  chunks : List ChunkWrite

/-- JS `s.endsWith(suffix)`, over the character lists. -/
def strEndsWith (s suffix : String) : Bool :=
  suffix.toList.reverse.isPrefixOf s.toList.reverse

/-- JS `url.substring(url.lastIndexOf(slash) + 1)` for the PDF title: everything
after the last slash (the whole url when it has no slash). -/
def titleFromUrl (url : String) : String :=
  String.mk ((url.toList.reverse.takeWhile (fun c => c ≠ '/')).reverse)

/-- The extraction phase of `processUrlForIngestion` (lines selecting the PDF
or rendered-page strategy by the `.pdf` suffix). -/
structure Extracted where
  rawDocText : Option Str
  documentTitle : Option String
  articleSourceUrl : String

def extractContent (env : IngestEnv) (url : String) : Extracted :=
  if strEndsWith url ".pdf" then
    if jsTruthyTxt env.pdfContent then
      { rawDocText := env.pdfContent, documentTitle := some (titleFromUrl url),
        articleSourceUrl := url }
    else
      { rawDocText := none, documentTitle := none, articleSourceUrl := url }
  else
    match env.htmlArticle with
    | some a =>
      if jsTruthyTxt a.content && jsTruthyStr a.title then
        { rawDocText := a.content, documentTitle := a.title,
          articleSourceUrl := match a.url with | some u => jsOrStr u url | none => url }
      else
        { rawDocText := none, documentTitle := none, articleSourceUrl := url }
    | none => { rawDocText := none, documentTitle := none, articleSourceUrl := url }

def processingUpdate : JobUpdate := { status := "processing", errorMessage := none }

def completedUpdate : JobUpdate := { status := "completed", errorMessage := none }

def noContentMsg : String := "No content could be cleaned or fetched."

def noChunksMsg : String := "No chunks were generated from the content."

def embedFailMsg : String := "Failed to generate embeddings or embedding count mismatch."

/-- Model of `IngestionService.generateEmbeddings`: empty input gives an empty batch;
a missing API key or any error of the external `embedDocuments` call fails the
whole batch (`null`, modelled as `none`) with no partial result. -/
def generateEmbeddings (env : IngestEnv) (chunks : List Str) : Option (List Vec) :=
  if chunks.isEmpty then some []
  else if !env.apiKey then none
  else
    match env.embedDocumentsResult with
    | .ok vs => some vs
    | .error _ => none

def exceptOk : Except String Unit → Bool
  | .ok _ => true
  | .error _ => false

/-- Title stored for the document and its chunks
(`documentTitle || 'Untitled Document'`). -/
def ingestTitle (env : IngestEnv) (url : String) : String :=
  jsOrStr (((extractContent env url).documentTitle).getD "") "Untitled Document"

/-- Url property stored on chunks (`articleSourceUrl || url`). -/
def ingestChunkUrl (env : IngestEnv) (url : String) : String :=
  jsOrStr (extractContent env url).articleSourceUrl url

/-- The chunks derived from the extracted text. -/
def ingestChunks (env : IngestEnv) (url : String) : List Str :=
  chunkText (((extractContent env url).rawDocText).getD [])

/-- The RawDoc record created after successful extraction. -/
def ingestRawDoc (env : IngestEnv) (url jid : String) : RawDocRecord :=
  { docId := env.rawDocId, jobId := jid, sourceUrl := url, title := ingestTitle env url }

/-- One `DocChunk` create of `processUrlForIngestion`: properties and the
positionally aligned vector `embeddings[index]`. -/
def mkDocChunkWrite (env : IngestEnv) (jobId url docTitle : String) (vs : List Vec)
    (p : Nat × Str) : ChunkWrite :=
  { id := env.chunkIdOf p.1
    properties := mkChunkProperties (env.chunkIdOf p.1) env.rawDocId jobId p.2 url docTitle
    vector := vs.getD p.1 [] }

/-- The `DocChunk` creates acknowledged by the store (`Promise.all` attempts
every create; the ones that succeed stay written even if another rejects). -/
def ingestChunkWrites (env : IngestEnv) (url jid : String) (vs : List Vec) : List ChunkWrite :=
  ((ingestChunks env url).enum.filter (fun p => exceptOk (env.chunkCreate p.1))).map
    (mkDocChunkWrite env jid (ingestChunkUrl env url) (ingestTitle env url) vs)

/-- Errors of the rejected `DocChunk` creates, in index order. -/
def ingestChunkFailures (env : IngestEnv) (url : String) : List String :=
  (ingestChunks env url).enum.filterMap
    (fun p => match env.chunkCreate p.1 with | .error e => some e | .ok _ => none)

/-- The `catch` block of `processUrlForIngestion`: record a Failed job with
the thrown message; if that store write itself throws, the exception leaves
the function. -/
def ingestCatch (env : IngestEnv) (rawDocs : List RawDocRecord) (chunks : List ChunkWrite)
    (msg : String) : IngestOutcome :=
  match env.updCatch with
  | .ok _ =>
    { result := .ok ()
      jobUpdates := [processingUpdate, { status := "failed", errorMessage := some msg }]
      rawDocs := rawDocs, chunks := chunks }
  | .error e =>
    { result := .error e, jobUpdates := [processingUpdate], rawDocs := rawDocs, chunks := chunks }

/-- Model of `IngestionService.processUrlForIngestion`.  The initial `processing`
status update happens before the `try` block, so its exception propagates;
inside the `try`, extraction/chunking/embedding failures are turned into
Failed-status updates (extraction and chunking never throw: they return
null/empty), and any thrown store-write error is handled by `ingestCatch`. -/
def processUrlForIngestion (env : IngestEnv) (url : String) (weaviateJobId : String) :
    IngestOutcome :=
  match env.updProcessing with
  | .error e => { result := .error e, jobUpdates := [], rawDocs := [], chunks := [] }
  | .ok _ =>
    if !(jsTruthyTxt (extractContent env url).rawDocText) ||
        !(jsTruthyStr (extractContent env url).documentTitle) then
      match env.updNoContent with
      | .ok _ =>
        { result := .ok ()
          jobUpdates := [processingUpdate, { status := "failed", errorMessage := some noContentMsg }]
          rawDocs := [], chunks := [] }
      | .error e => ingestCatch env [] [] e
    else
      match env.createRawDoc with
      | .error e => ingestCatch env [] [] e
      | .ok _ =>
        if (ingestChunks env url).isEmpty then
          match env.updNoChunks with
          | .ok _ =>
            { result := .ok ()
              jobUpdates := [processingUpdate, { status := "failed", errorMessage := some noChunksMsg }]
              rawDocs := [ingestRawDoc env url weaviateJobId], chunks := [] }
          | .error e => ingestCatch env [ingestRawDoc env url weaviateJobId] [] e
        else
          match generateEmbeddings env (ingestChunks env url) with
          | none =>
            match env.updEmbedFail with
            | .ok _ =>
              { result := .ok ()
                jobUpdates := [processingUpdate, { status := "failed", errorMessage := some embedFailMsg }]
                rawDocs := [ingestRawDoc env url weaviateJobId], chunks := [] }
            | .error e => ingestCatch env [ingestRawDoc env url weaviateJobId] [] e
          | some vs =>
            if vs.length ≠ (ingestChunks env url).length then
              match env.updEmbedFail with
              | .ok _ =>
                { result := .ok ()
                  jobUpdates := [processingUpdate, { status := "failed", errorMessage := some embedFailMsg }]
                  rawDocs := [ingestRawDoc env url weaviateJobId], chunks := [] }
              | .error e => ingestCatch env [ingestRawDoc env url weaviateJobId] [] e
            else
              match ingestChunkFailures env url with
              | [] =>
                match env.updCompleted with
                | .ok _ =>
                  { result := .ok ()
                    jobUpdates := [processingUpdate, completedUpdate]
                    rawDocs := [ingestRawDoc env url weaviateJobId]
                    chunks := ingestChunkWrites env url weaviateJobId vs }
                | .error e =>
                  ingestCatch env [ingestRawDoc env url weaviateJobId]
                    (ingestChunkWrites env url weaviateJobId vs) e
              | e :: _ =>
                ingestCatch env [ingestRawDoc env url weaviateJobId]
                  (ingestChunkWrites env url weaviateJobId vs) e

/-- Model of `IngestionProcessor.process`: dispatch on the job name; an exception from
`processUrlForIngestion` is logged and rethrown. -/
def processJob (env : IngestEnv) (jobName url weaviateJobId : String) : Except String Unit :=
  if jobName = "ingestUrl" then (processUrlForIngestion env url weaviateJobId).result
  else .ok ()

/-! ### Chat / query pipeline (`ChatService.sendMessageAndStreamResponse`) -/

/-- The `DocChunkContext` shape assembled from a search hit: the service reads
the fields `content`, `sourceUrl`, `sourceTitle`, `pageNumber` of each
returned object. -/
structure DocChunkContext where
  id : String
  content : Option PropValue
  sourceUrl : Option PropValue
  sourceTitle : Option PropValue
  pageNumber : Option PropValue
  deriving DecidableEq, Repr

def toDocChunkContext (o : StoredObject) : DocChunkContext :=
  { id := o.id
    content := getField o "content"
    sourceUrl := getField o "sourceUrl"
    sourceTitle := getField o "sourceTitle"
    pageNumber := getField o "pageNumber" }

/-- One entry of the `llm_sources` event. -/
structure SourceEntry where
  id : String
  title : Option PropValue
  url : Option PropValue
  pageNumber : Option PropValue
  deriving DecidableEq, Repr

def toSourceEntry (d : DocChunkContext) : SourceEntry :=
  { id := d.id, title := d.sourceTitle, url := d.sourceUrl, pageNumber := d.pageNumber }

inductive ChatEvent where
  | embedding_result (dimension : Nat)
  | retrieved_context (context : List DocChunkContext)
  | llm_response (content : String) (sources : List SourceEntry)
  | llm_chunk (content : String)
  | llm_sources (sources : List SourceEntry)
  | error (message : String) (details : String)
  deriving DecidableEq, Repr

structure ChatInteraction where
  chatId : String
  userSessionId : Option String
  prompt : String
  answer : String
  citations : List String
  askedAt : String
  deriving DecidableEq, Repr

/-- Environment of one `sendMessageAndStreamResponse` run: outcomes of the
embedding call, the nearest-neighbor search, the generation stream (fragments
yielded before completing, or before throwing when `genError` is set) and the
`ChatInteraction` store write. -/
structure ChatEnv where
  embedResult : Except String (List Int)
  searchResult : Except String (List StoredObject)
  genFragments : List String
  genError : Option String
  persistOk : Bool
  chatId : String
  askedAt : String

/-- Observable outcome of a `sendMessageAndStreamResponse` run. -/
structure ChatOutcome where
  events : List ChatEvent
  persistAttempts : List ChatInteraction
  persisted : List ChatInteraction
  promptContext : Option String
  completed : Bool
  deriving DecidableEq, Repr

/-- An apostrophe (kept out of string literals). -/
def apos : String := String.singleton (Char.ofNat 39)

def noContextMessage : String :=
  "I couldn" ++ apos ++ "t find any relevant information to answer your question."

def genericProcessError : String := "Failed to process chat request."

def genericEmbeddingError : String :=
  "Failed to process chat request due to embedding failure."

/-- JS template interpolation of a possibly-undefined property value. -/
def renderJs : Option PropValue → String
  | none => "undefined"
  | some (.str s) => s
  | some (.txt t) => String.mk t
  | some (.beacons _) => "[object Object]"

/-- The `formattedContext` string built from the retrieved chunks. -/
def formatContext (ctxs : List DocChunkContext) : String :=
  String.intercalate "\n\n---\n\n"
    (ctxs.enum.map fun p =>
      "Source " ++ toString (p.1 + 1) ++ " (ID: " ++ p.2.id ++ "):\n" ++ renderJs p.2.content)

def chunkCitation (d : DocChunkContext) : String :=
  "weaviate://localhost/DocChunk/" ++ d.id

/-- The `chatInteractionData` record stored after a completed stream. -/
def mkChatInteraction (env : ChatEnv) (query : String) (sessionId : Option String)
    (rs : List StoredObject) : ChatInteraction :=
  { chatId := env.chatId
    userSessionId := sessionId.bind (fun s => if s = "" then none else some s)
    prompt := query
    answer := String.join env.genFragments
    citations := (rs.map toDocChunkContext).map chunkCitation
    askedAt := env.askedAt }

/-- Model of `ChatService.sendMessageAndStreamResponse`. -/
def sendMessageAndStreamResponse (env : ChatEnv) (query : String) (sessionId : Option String) :
    ChatOutcome :=
  match env.embedResult with
  | .error e =>
    { events := [.error genericEmbeddingError e]
      persistAttempts := [], persisted := [], promptContext := none, completed := false }
  | .ok embedding =>
    match env.searchResult with
    | .error e =>
      { events := [.embedding_result embedding.length, .error genericProcessError e]
        persistAttempts := [], persisted := [], promptContext := none, completed := false }
    | .ok searchResults =>
      if (searchResults.map toDocChunkContext).length = 0 then
        { events := [.embedding_result embedding.length,
                     .retrieved_context (searchResults.map toDocChunkContext),
                     .llm_response noContextMessage []]
          persistAttempts := [], persisted := [], promptContext := none, completed := true }
      else
        match env.genError with
        | some e =>
          { events := [.embedding_result embedding.length,
                       .retrieved_context (searchResults.map toDocChunkContext)] ++
              env.genFragments.map ChatEvent.llm_chunk ++ [.error genericProcessError e]
            persistAttempts := [], persisted := []
            promptContext := some (formatContext (searchResults.map toDocChunkContext))
            completed := false }
        | none =>
          { events := [.embedding_result embedding.length,
                       .retrieved_context (searchResults.map toDocChunkContext)] ++
              env.genFragments.map ChatEvent.llm_chunk ++
              [.llm_sources ((searchResults.map toDocChunkContext).map toSourceEntry)]
            persistAttempts := [mkChatInteraction env query sessionId searchResults]
            persisted := if env.persistOk then [mkChatInteraction env query sessionId searchResults]
              else []
            promptContext := some (formatContext (searchResults.map toDocChunkContext))
            completed := true }

/-- Terminal event kinds (`llm_sources` / `llm_response` fallback / `error`). -/
def ChatEvent.isTerminal : ChatEvent → Bool
  | .llm_response _ _ => true
  | .llm_sources _ => true
  | .error _ _ => true
  | _ => false

/-- Pre-content event kinds (`embedding_result` / `retrieved_context`). -/
def ChatEvent.isContextual : ChatEvent → Bool
  | .embedding_result _ => true
  | .retrieved_context _ => true
  | _ => false

/-- Content-fragment events. -/
def ChatEvent.isChunk : ChatEvent → Bool
  | .llm_chunk _ => true
  | _ => false

/-- The exception messages the environment can produce, i.e. everything
`details` could be forwarding. -/
def ChatEnv.errorDetails (env : ChatEnv) : List String :=
  (match env.embedResult with | .error e => [e] | .ok _ => []) ++
  (match env.searchResult with | .error e => [e] | .ok _ => []) ++
  (match env.genError with | some e => [e] | none => [])

/-- The merge windows, linked by the recorded carries of `mergeLoopC`: there
is exactly one carry per pair of consecutive windows, each carry is a suffix
of the window it was popped from, a prefix of the window it seeds, and totals
at most `co` characters.  Because the carries are the ones the merge loop
actually retains (not existentially chosen), a merge that carried more than
`co` characters of overlap into the next window would falsify this
predicate. -/
def carriesLink (co : Nat) : List (List Str) → List (List Str) → Prop
  | [_], [] => True
  | w1 :: w2 :: ws, c :: cs =>
    c <:+ w1 ∧ c <+: w2 ∧ sumLen c ≤ co ∧ carriesLink co (w2 :: ws) cs
  | _, _ => False

/-! ### Theorems -/

theorem trim_eq_nil_iff (s : Str) : trim s = [] ↔ ∀ c ∈ s, ws c = true := by
  unfold trim
  rw [List.reverse_eq_nil_iff, List.dropWhile_eq_nil_iff]
  constructor
  · intro h c hc
    rcases List.mem_append.1 ((List.takeWhile_append_dropWhile ws s) ▸ hc) with h1 | h2
    · exact List.mem_takeWhile_imp h1
    · exact h c (List.mem_reverse.2 h2)
  · intro h c hc
    exact h c ((List.dropWhile_sublist ws).subset (List.mem_reverse.1 hc))

theorem trim_length_le (s : Str) : (trim s).length ≤ s.length := by
  unfold trim
  calc ((s.dropWhile ws).reverse.dropWhile ws).reverse.length
      = ((s.dropWhile ws).reverse.dropWhile ws).length := List.length_reverse _
    _ ≤ (s.dropWhile ws).reverse.length := (List.dropWhile_sublist ws).length_le
    _ = (s.dropWhile ws).length := List.length_reverse _
    _ ≤ s.length := (List.dropWhile_sublist ws).length_le

theorem sumLen_nil : sumLen ([] : List Str) = 0 := rfl

theorem sumLen_cons (s : Str) (l : List Str) : sumLen (s :: l) = s.length + sumLen l := by
  simp [sumLen]

theorem sumLen_append (a b : List Str) : sumLen (a ++ b) = sumLen a + sumLen b := by
  simp [sumLen]

theorem intercalate_nil_left (l : List Str) : List.intercalate ([] : Str) l = l.flatten := by
  induction l with
  | nil => rfl
  | cons h t ih =>
    cases t with
    | nil => simp [List.intercalate, List.intersperse]
    | cons y t2 =>
      simp only [List.intercalate, List.intersperse] at ih ⊢
      simp [ih]

theorem flatten_filter_not_isEmpty (l : List Str) :
    (l.filter (fun s => !s.isEmpty)).flatten = l.flatten := by
  induction l with
  | nil => rfl
  | cons h t ih =>
    cases h with
    | nil => simpa using ih
    | cons c cs => simpa using ih

theorem flatten_map_singleton (t : Str) : (t.map (fun c => [c])).flatten = t := by
  induction t with
  | nil => rfl
  | cons c rest ih => simp [ih]

theorem splitKeepGo_flatten (sep : Str) : ∀ (t seg : Str),
    (splitKeepGo sep t seg).flatten = seg.reverse ++ t := by
  intro t
  induction t with
  | nil => intro seg; simp [splitKeepGo]
  | cons c rest ih =>
    intro seg
    rw [splitKeepGo]
    split
    · simp [ih]
    · simp [ih]

theorem splitOnSeparator_keep_flatten (sep : Str) (text : Str) :
    (splitOnSeparator true sep text).flatten = text := by
  unfold splitOnSeparator
  by_cases h : sep.isEmpty
  · simp [h, flatten_filter_not_isEmpty, flatten_map_singleton]
  · simp [h, flatten_filter_not_isEmpty, splitKeep, splitKeepGo_flatten]

theorem splitOnSeparator_nil_sep_length (keepSep : Bool) (text : Str) :
    ∀ s ∈ splitOnSeparator keepSep [] text, s.length = 1 := by
  intro s hs
  unfold splitOnSeparator at hs
  simp only [List.isEmpty_nil, if_true] at hs
  rcases List.mem_filter.1 hs with ⟨hmem, _⟩
  rcases List.mem_map.1 hmem with ⟨c, _, rfl⟩
  rfl

theorem popLoop_suffix (cs co sepLen dLen : Nat) : ∀ (doc : List Str) (total : Nat),
    (popLoop cs co sepLen dLen doc total).1 <:+ doc := by
  intro doc
  induction doc with
  | nil => intro total; exact List.suffix_rfl
  | cons h rest ih =>
    intro total
    unfold popLoop
    by_cases hc : total > co ∨ (total + dLen + (h :: rest).length * sepLen > cs ∧ total > 0)
    · rw [if_pos hc]
      exact (ih _).trans (List.suffix_cons h rest)
    · rw [if_neg hc]

theorem popLoop_sum (cs co sepLen dLen : Nat) : ∀ (doc : List Str) (total : Nat),
    total = sumLen doc →
    (popLoop cs co sepLen dLen doc total).2 = sumLen (popLoop cs co sepLen dLen doc total).1 := by
  intro doc
  induction doc with
  | nil => intro total ht; simpa [popLoop] using ht
  | cons h rest ih =>
    intro total ht
    unfold popLoop
    by_cases hc : total > co ∨ (total + dLen + (h :: rest).length * sepLen > cs ∧ total > 0)
    · rw [if_pos hc]
      apply ih
      rw [sumLen_cons] at ht
      omega
    · rw [if_neg hc]
      exact ht

theorem popLoop_exit (cs co sepLen dLen : Nat) : ∀ (doc : List Str) (total : Nat),
    total = sumLen doc →
    (popLoop cs co sepLen dLen doc total).2 ≤ co ∧
      ((popLoop cs co sepLen dLen doc total).2 + dLen +
          (popLoop cs co sepLen dLen doc total).1.length * sepLen ≤ cs ∨
        (popLoop cs co sepLen dLen doc total).2 = 0) := by
  intro doc
  induction doc with
  | nil =>
    intro total ht
    rw [sumLen_nil] at ht
    subst ht
    exact ⟨Nat.zero_le _, Or.inr rfl⟩
  | cons h rest ih =>
    intro total ht
    unfold popLoop
    by_cases hc : total > co ∨ (total + dLen + (h :: rest).length * sepLen > cs ∧ total > 0)
    · rw [if_pos hc]
      apply ih
      rw [sumLen_cons] at ht
      omega
    · rw [if_neg hc]
      push_neg at hc
      refine ⟨hc.1, ?_⟩
      by_cases hb : total + dLen + (h :: rest).length * sepLen ≤ cs
      · exact Or.inl hb
      · refine Or.inr ?_
        have h2 := hc.2 (by omega)
        omega

theorem trim_ne_nil_iff (s : Str) : trim s ≠ [] ↔ hasNW s := by
  rw [Ne, trim_eq_nil_iff, hasNW]
  constructor
  · intro h
    by_contra hc
    push_neg at hc
    exact h (fun c hcs => by
      have := hc c hcs
      cases hws : ws c
      · exact absurd hws this
      · rfl)
  · rintro ⟨c, hcs, hcw⟩ h
    rw [h c hcs] at hcw
    cases hcw

theorem joinDocs_of_hasNW (doc : List Str) (h : ∃ s ∈ doc, hasNW s) :
    joinDocs doc ([] : Str) = some (trim doc.flatten) ∧ trim doc.flatten ≠ [] := by
  rcases h with ⟨s, hs, c, hcs, hcw⟩
  have hmem : c ∈ doc.flatten := List.mem_flatten.2 ⟨s, hs, hcs⟩
  have hne : trim doc.flatten ≠ [] := (trim_ne_nil_iff _).2 ⟨c, hmem, hcw⟩
  refine ⟨?_, hne⟩
  unfold joinDocs
  rw [intercalate_nil_left, if_neg (by simpa [List.isEmpty_iff] using hne)]

theorem joinDocs_length_le (doc : List Str) (c : Str)
    (h : c ∈ (joinDocs doc ([] : Str)).toList) : c.length ≤ sumLen doc := by
  unfold joinDocs at h
  rw [intercalate_nil_left] at h
  by_cases he : (trim doc.flatten).isEmpty
  · rw [if_pos he] at h
    cases h
  · rw [if_neg he] at h
    rcases List.mem_singleton.1 (by simpa using h) with rfl
    calc (trim doc.flatten).length ≤ doc.flatten.length := trim_length_le _
      _ = sumLen doc := by rw [List.length_flatten]; rfl

theorem mergeLoop_ne_nil (cs co : Nat) : ∀ (splits doc : List Str) (total : Nat),
    (∃ s ∈ splits ++ doc, hasNW s) → mergeLoop cs co ([] : Str) splits doc total ≠ [] := by
  intro splits
  induction splits with
  | nil =>
    intro doc total hex
    rw [List.nil_append] at hex
    rw [mergeLoop]
    rcases joinDocs_of_hasNW doc hex with ⟨hj, _⟩
    rw [hj]
    simp
  | cons d rest ih =>
    intro doc total hex
    rw [mergeLoop]
    split
    · split
      · rename_i hdoc
        apply ih
        rcases hex with ⟨s, hs, hnw⟩
        rw [List.isEmpty_iff] at hdoc
        subst hdoc
        rcases List.mem_append.1 hs with h1 | h2
        · rcases List.mem_cons.1 h1 with rfl | hr
          · exact ⟨s, by simp, hnw⟩
          · exact ⟨s, by simp [hr], hnw⟩
        · cases h2
      · rcases hex with ⟨s, hs, hnw⟩
        rcases List.mem_append.1 hs with h1 | h2
        · apply List.append_ne_nil_of_right_ne_nil
          apply ih
          rcases List.mem_cons.1 h1 with rfl | hr
          · exact ⟨s, by simp, hnw⟩
          · exact ⟨s, by simp [hr], hnw⟩
        · apply List.append_ne_nil_of_left_ne_nil
          rcases joinDocs_of_hasNW doc ⟨s, h2, hnw⟩ with ⟨hj, _⟩
          rw [hj]
          simp
    · apply ih
      rcases hex with ⟨s, hs, hnw⟩
      refine ⟨s, ?_, hnw⟩
      rcases List.mem_append.1 hs with h1 | h2
      · rcases List.mem_cons.1 h1 with rfl | hr
        · simp
        · simp [hr]
      · simp [h2]

theorem mergeLoop_size (cs co : Nat) : ∀ (splits doc : List Str) (total : Nat),
    (∀ s ∈ splits, s.length < cs) → total = sumLen doc → total ≤ cs →
    ∀ c ∈ mergeLoop cs co ([] : Str) splits doc total, c.length ≤ cs := by
  intro splits
  induction splits with
  | nil =>
    intro doc total _ ht hle c hc
    rw [mergeLoop] at hc
    calc c.length ≤ sumLen doc := joinDocs_length_le doc c hc
      _ = total := ht.symm
      _ ≤ cs := hle
  | cons d rest ih =>
    intro doc total hsplits ht hle c hc
    have hd : d.length < cs := hsplits d (List.mem_cons_self d rest)
    have hrest : ∀ s ∈ rest, s.length < cs := fun s hs => hsplits s (List.mem_cons_of_mem d hs)
    rw [mergeLoop] at hc
    split at hc
    · rename_i hth
      split at hc
      · exact ih [d] d.length hrest (by simp [sumLen]) (Nat.le_of_lt hd) c hc
      · rcases List.mem_append.1 hc with h1 | h2
        · calc c.length ≤ sumLen doc := joinDocs_length_le doc c h1
            _ = total := ht.symm
            _ ≤ cs := hle
        · have hexit := (popLoop_exit cs co (List.length ([] : Str)) d.length doc total ht).2
          have hsum := popLoop_sum cs co (List.length ([] : Str)) d.length doc total ht
          refine ih _ _ hrest (by rw [sumLen_append, ← hsum]; simp [sumLen]) ?_ c h2
          simp only [List.length_nil, Nat.mul_zero, Nat.add_zero] at hexit ⊢
          omega
    · rename_i hth
      refine ih (doc ++ [d]) (total + d.length) hrest (by rw [ht, sumLen_append]; simp [sumLen]) ?_ c hc
      have := Nat.le_of_not_lt hth
      simp only [List.length_nil, Nat.mul_zero, Nat.add_zero] at this
      exact this

theorem mergeLoop_eq_windows (cs co : Nat) (sep : Str) : ∀ (splits doc : List Str) (total : Nat),
    mergeLoop cs co sep splits doc total =
      (mergeLoopW cs co sep splits doc total).filterMap (fun w => joinDocs w sep) := by
  intro splits
  induction splits with
  | nil =>
    intro doc total
    rw [mergeLoop, mergeLoopW]
    cases h : joinDocs doc sep <;> simp [h, Option.toList]
  | cons d rest ih =>
    intro doc total
    rw [mergeLoop, mergeLoopW]
    split
    · split
      · exact ih _ _
      · rw [List.filterMap_cons]
        cases h : joinDocs doc sep <;> simp [h, ih, Option.toList]
    · exact ih _ _

theorem mergeLoopW_head_extends (cs co : Nat) (sep : Str) : ∀ (splits doc : List Str) (total : Nat)
    (w : List Str), (mergeLoopW cs co sep splits doc total).head? = some w → doc <+: w := by
  intro splits
  induction splits with
  | nil =>
    intro doc total w h
    rw [mergeLoopW] at h
    simp only [List.head?_cons, Option.some.injEq] at h
    subst h
    exact List.prefix_rfl
  | cons d rest ih =>
    intro doc total w h
    rw [mergeLoopW] at h
    split at h
    · split at h
      · rename_i hdoc
        rw [List.isEmpty_iff] at hdoc
        subst hdoc
        exact List.nil_prefix
      · simp only [List.head?_cons, Option.some.injEq] at h
        subst h
        exact List.prefix_rfl
    · exact (List.prefix_append doc [d]).trans (ih _ _ _ h)

theorem mergeLoopW_ne_nil (cs co : Nat) (sep : Str) : ∀ (splits doc : List Str) (total : Nat),
    mergeLoopW cs co sep splits doc total ≠ [] := by
  intro splits
  induction splits with
  | nil =>
    intro doc total
    rw [mergeLoopW]
    exact List.cons_ne_nil _ _
  | cons d rest ih =>
    intro doc total
    rw [mergeLoopW]
    split
    · split
      · exact ih _ _
      · exact List.cons_ne_nil _ _
    · exact ih _ _

theorem mergeLoopWC_link (cs co : Nat) : ∀ (splits doc : List Str) (total : Nat),
    total = sumLen doc →
    carriesLink co (mergeLoopW cs co ([] : Str) splits doc total)
      (mergeLoopC cs co ([] : Str) splits doc total) := by
  intro splits
  induction splits with
  | nil =>
    intro doc total _
    rw [mergeLoopW, mergeLoopC]
    exact trivial
  | cons d rest ih =>
    intro doc total ht
    rw [mergeLoopW, mergeLoopC]
    split
    · split
      · exact ih [d] d.length (by simp [sumLen])
      · have hsum := popLoop_sum cs co (List.length ([] : Str)) d.length doc total ht
        have hlink := ih ((popLoop cs co (List.length ([] : Str)) d.length doc total).1 ++ [d])
          ((popLoop cs co (List.length ([] : Str)) d.length doc total).2 + d.length)
          (by rw [sumLen_append, ← hsum]; simp [sumLen])
        have hne := mergeLoopW_ne_nil cs co ([] : Str) rest
          ((popLoop cs co (List.length ([] : Str)) d.length doc total).1 ++ [d])
          ((popLoop cs co (List.length ([] : Str)) d.length doc total).2 + d.length)
        cases hWs : mergeLoopW cs co ([] : Str) rest
            ((popLoop cs co (List.length ([] : Str)) d.length doc total).1 ++ [d])
            ((popLoop cs co (List.length ([] : Str)) d.length doc total).2 + d.length) with
        | nil => exact absurd hWs hne
        | cons w2 ws =>
          rw [hWs] at hlink
          have hpre := mergeLoopW_head_extends cs co ([] : Str) rest
            ((popLoop cs co (List.length ([] : Str)) d.length doc total).1 ++ [d])
            ((popLoop cs co (List.length ([] : Str)) d.length doc total).2 + d.length)
            w2 (by rw [hWs]; rfl)
          refine ⟨popLoop_suffix cs co _ _ doc total,
            (List.prefix_append _ [d]).trans hpre, ?_, hlink⟩
          rw [← hsum]
          exact (popLoop_exit cs co (List.length ([] : Str)) d.length doc total ht).1
    · exact ih (doc ++ [d]) (total + d.length) (by rw [ht, sumLen_append]; simp [sumLen])

theorem splitLoop_ne_nil (cs : Nat) (handleBig : Str → List Str) (mergeGood : List Str → List Str)
    (hbig : ∀ s, hasNW s → handleBig s ≠ [])
    (hmerge : ∀ gs, (∃ g ∈ gs, hasNW g) → mergeGood gs ≠ []) :
    ∀ (splits good : List Str), (∃ s ∈ splits ++ good, hasNW s) →
    splitLoop cs handleBig mergeGood splits good ≠ [] := by
  intro splits
  induction splits with
  | nil =>
    intro good hex
    rw [List.nil_append] at hex
    rw [splitLoop]
    rcases hex with ⟨s, hs, hnw⟩
    rw [if_neg (by simp only [List.isEmpty_iff]; exact List.ne_nil_of_mem hs)]
    exact hmerge good ⟨s, hs, hnw⟩
  | cons s0 rest ih =>
    intro good hex
    rw [splitLoop]
    split
    · apply ih
      rcases hex with ⟨s, hs, hnw⟩
      refine ⟨s, ?_, hnw⟩
      simp only [List.cons_append, List.mem_cons, List.mem_append, List.mem_singleton] at hs ⊢
      tauto
    · rcases hex with ⟨s, hs, hnw⟩
      simp only [List.cons_append, List.mem_cons, List.mem_append] at hs
      rcases hs with rfl | hs | hs
      · intro hcontra
        rcases List.append_eq_nil.1 hcontra with ⟨h1, _⟩
        rcases List.append_eq_nil.1 h1 with ⟨_, hb⟩
        exact hbig s hnw hb
      · intro hcontra
        rcases List.append_eq_nil.1 hcontra with ⟨_, h2⟩
        exact ih [] ⟨s, by simp [hs], hnw⟩ h2
      · intro hcontra
        rcases List.append_eq_nil.1 hcontra with ⟨h1, _⟩
        rcases List.append_eq_nil.1 h1 with ⟨ha, _⟩
        rw [if_neg (by simp only [List.isEmpty_iff]; exact List.ne_nil_of_mem hs)] at ha
        exact hmerge good ⟨s, hs, hnw⟩ ha

theorem splitLoop_size (cs : Nat) (handleBig : Str → List Str) (mergeGood : List Str → List Str)
    (hmerge : ∀ gs, (∀ g ∈ gs, g.length < cs) → ∀ c ∈ mergeGood gs, c.length ≤ cs) :
    ∀ (splits good : List Str),
    (∀ s ∈ splits, ¬s.length < cs → ∀ c ∈ handleBig s, c.length ≤ cs) →
    (∀ g ∈ good, g.length < cs) →
    ∀ c ∈ splitLoop cs handleBig mergeGood splits good, c.length ≤ cs := by
  intro splits
  induction splits with
  | nil =>
    intro good _ hgood c hc
    rw [splitLoop] at hc
    split at hc
    · cases hc
    · exact hmerge good hgood c hc
  | cons s0 rest ih =>
    intro good hbig hgood c hc
    rw [splitLoop] at hc
    split at hc
    · rename_i hs0
      refine ih (good ++ [s0]) (fun s hs => hbig s (List.mem_cons_of_mem s0 hs)) ?_ c hc
      intro g hg
      rcases List.mem_append.1 hg with h | h
      · exact hgood g h
      · rcases List.mem_singleton.1 h with rfl
        exact hs0
    · rename_i hs0
      rcases List.mem_append.1 hc with h1 | h2
      · rcases List.mem_append.1 h1 with ha | hb
        · split at ha
          · cases ha
          · exact hmerge good hgood c ha
        · exact hbig s0 (List.mem_cons_self s0 rest) hs0 c hb
      · exact ih [] (fun s hs => hbig s (List.mem_cons_of_mem s0 hs)) (by intro g hg; cases hg) c h2

theorem chooseSepGo_spec (dflt : Str) (text : Str) : ∀ (l : List Str), ([] : Str) ∈ l →
    ((chooseSepGo dflt text l).1 = [] ∧ (chooseSepGo dflt text l).2 = none) ∨
      ∃ rest, (chooseSepGo dflt text l).2 = some rest ∧ ([] : Str) ∈ rest ∧
        rest.length < l.length := by
  intro l
  induction l with
  | nil => intro h; cases h
  | cons s0 rest ih =>
    intro hmem
    rw [chooseSepGo]
    split
    · exact Or.inl ⟨rfl, rfl⟩
    · rename_i hs0
      have hrest : ([] : Str) ∈ rest := by
        rcases List.mem_cons.1 hmem with h | h
        · exact absurd (by rw [← h]; rfl) hs0
        · exact h
      split
      · exact Or.inr ⟨rest, rfl, hrest, by simp⟩
      · rcases ih hrest with h | ⟨r, heq, hr, hlen⟩
        · exact Or.inl h
        · exact Or.inr ⟨r, heq, hr, Nat.lt_succ_of_lt hlen⟩

theorem chooseSep_spec (seps : List Str) (text : Str) (hmem : ([] : Str) ∈ seps) :
    ((chooseSep seps text).1 = [] ∧ (chooseSep seps text).2 = none) ∨
      ∃ rest, (chooseSep seps text).2 = some rest ∧ ([] : Str) ∈ rest ∧
        rest.length < seps.length :=
  chooseSepGo_spec _ text seps hmem

theorem splitTextFuel_size (cs co : Nat) (hcs : 1 < cs) : ∀ (fuel : Nat) (seps : List Str)
    (text : Str), ([] : Str) ∈ seps →
    ∀ c ∈ splitTextFuel cs co true fuel seps text, c.length ≤ cs := by
  intro fuel
  induction fuel with
  | zero => intro seps text _ c hc; cases hc
  | succ n ih =>
    intro seps text hmem c hc
    rw [splitTextFuel] at hc
    refine splitLoop_size cs _ _ ?_ _ [] ?_ (by intro g hg; cases hg) c hc
    · intro gs hgs c' hc'
      simp only [if_pos rfl] at hc'
      rw [mergeSplits] at hc'
      exact mergeLoop_size cs co gs [] 0 hgs rfl (Nat.zero_le _) c' hc'
    · intro s hs hns c' hc'
      rcases chooseSep_spec seps text hmem with ⟨h1, h2⟩ | ⟨rest, h2, hrmem, _⟩
      · rw [h1] at hs
        have hlen := splitOnSeparator_nil_sep_length true text s hs
        exact absurd (by rw [hlen]; exact hcs) hns
      · simp only [h2] at hc'
        exact ih rest s hrmem c' hc'

theorem splitTextFuel_ne_nil (cs co : Nat) : ∀ (fuel : Nat) (seps : List Str) (text : Str),
    seps.length < fuel → ([] : Str) ∈ seps → hasNW text →
    splitTextFuel cs co true fuel seps text ≠ [] := by
  intro fuel
  induction fuel with
  | zero => intro seps text hlt _ _; exact absurd hlt (Nat.not_lt_zero _)
  | succ n ih =>
    intro seps text hlt hmem htext
    rw [splitTextFuel]
    have hflat := splitOnSeparator_keep_flatten (chooseSep seps text).1 text
    rcases htext with ⟨ch, hch, hw⟩
    have hchf : ch ∈ (splitOnSeparator true (chooseSep seps text).1 text).flatten := by
      rw [hflat]; exact hch
    rcases List.mem_flatten.1 hchf with ⟨s, hsmem, hsch⟩
    refine splitLoop_ne_nil cs _ _ ?_ ?_ _ [] ⟨s, by simp [hsmem], ⟨ch, hsch, hw⟩⟩
    · intro s' hnw'
      cases h2 : (chooseSep seps text).2 with
      | none => simp
      | some newSeps =>
        rcases chooseSep_spec seps text hmem with ⟨_, hn⟩ | ⟨rest, hsome, hrmem, hrlen⟩
        · rw [hn] at h2; cases h2
        · rw [hsome] at h2
          injection h2 with h2
          subst h2
          exact ih _ s' (by omega) hrmem hnw'
    · intro gs hgs
      simp only [if_pos rfl]
      rw [mergeSplits]
      exact mergeLoop_ne_nil cs co gs [] 0 (by simpa using hgs)

/-- C9: the chunker returns zero chunks exactly on empty/whitespace-only
input (as an empty list, never an error: `chunkText` is total); every chunk
of a non-empty input has length at most `chunkSize`; and the merge windows
that the chunks of one merge run are joined from are linked by the carries
the merge loop actually retains when it flushes a window: each carry is a
suffix of the flushed window, a prefix of the next window, and totals at most
`chunkOverlap` characters. -/
theorem chunker_zero_iff_blank_size_overlap :
    (∀ text : Str, chunkText text = [] ↔ trim text = []) ∧
    (∀ text : Str, ∀ c ∈ chunkText text, c.length ≤ chunkSize) ∧
    (∀ splits : List Str,
      mergeSplits chunkSize chunkOverlap splits ([] : Str) =
        (mergeLoopW chunkSize chunkOverlap ([] : Str) splits [] 0).filterMap
          (fun w => joinDocs w ([] : Str)) ∧
      carriesLink chunkOverlap
        (mergeLoopW chunkSize chunkOverlap ([] : Str) splits [] 0)
        (mergeLoopC chunkSize chunkOverlap ([] : Str) splits [] 0)) := by
  refine ⟨?_, ?_, ?_⟩
  · intro text
    constructor
    · intro h
      by_contra htr
      have hne := splitTextFuel_ne_nil chunkSize chunkOverlap (defaultSeparators.length + 1)
        defaultSeparators text (Nat.lt_succ_self _) (by simp [defaultSeparators])
        ((trim_ne_nil_iff text).1 htr)
      rw [chunkText] at h
      split at h
      · rename_i hcond
        rcases hcond with h1 | h2
        · rw [List.isEmpty_iff] at h1
          subst h1
          exact htr rfl
        · exact htr h2
      · exact hne h
    · intro h
      rw [chunkText, if_pos (Or.inr h)]
  · intro text c hc
    rw [chunkText] at hc
    split at hc
    · cases hc
    · exact splitTextFuel_size chunkSize chunkOverlap (by norm_num [chunkSize]) _ _ _
        (by simp [defaultSeparators]) c hc
  · intro splits
    constructor
    · rw [mergeSplits]
      exact mergeLoop_eq_windows _ _ _ splits [] 0
    · exact mergeLoopWC_link _ _ splits [] 0 rfl

theorem countP_terminal_map_chunk (l : List String) :
    (l.map ChatEvent.llm_chunk).countP ChatEvent.isTerminal = 0 := by
  induction l with
  | nil => rfl
  | cons h t ih => simp [List.countP_cons, ih, ChatEvent.isTerminal]

theorem mem_map_chunk_isChunk (l : List String) :
    ∀ e ∈ l.map ChatEvent.llm_chunk, e.isChunk = true := by
  intro e he
  rcases List.mem_map.1 he with ⟨s, _, rfl⟩
  rfl

theorem sendMessage_embed_error (env : ChatEnv) (query : String) (sessionId : Option String)
    (e : String) (h : env.embedResult = .error e) :
    sendMessageAndStreamResponse env query sessionId =
      { events := [.error genericEmbeddingError e]
        persistAttempts := [], persisted := [], promptContext := none, completed := false } := by
  unfold sendMessageAndStreamResponse
  rw [h]

theorem sendMessage_search_error (env : ChatEnv) (query : String) (sessionId : Option String)
    (emb : List Int) (e : String) (h1 : env.embedResult = .ok emb)
    (h2 : env.searchResult = .error e) :
    sendMessageAndStreamResponse env query sessionId =
      { events := [.embedding_result emb.length, .error genericProcessError e]
        persistAttempts := [], persisted := [], promptContext := none, completed := false } := by
  unfold sendMessageAndStreamResponse
  rw [h1, h2]

theorem sendMessage_zero (env : ChatEnv) (query : String) (sessionId : Option String)
    (emb : List Int) (h1 : env.embedResult = .ok emb) (h2 : env.searchResult = .ok []) :
    sendMessageAndStreamResponse env query sessionId =
      { events := [.embedding_result emb.length, .retrieved_context [],
                   .llm_response noContextMessage []]
        persistAttempts := [], persisted := [], promptContext := none, completed := true } := by
  unfold sendMessageAndStreamResponse
  rw [h1, h2]
  rfl

theorem length_map_ctx_ne_zero (rs : List StoredObject) (h : rs ≠ []) :
    ¬(rs.map toDocChunkContext).length = 0 := by
  rw [List.length_map]
  exact fun hc => h (List.length_eq_zero.1 hc)

theorem sendMessage_genError (env : ChatEnv) (query : String) (sessionId : Option String)
    (emb : List Int) (rs : List StoredObject) (e : String)
    (h1 : env.embedResult = .ok emb) (h2 : env.searchResult = .ok rs) (h3 : rs ≠ [])
    (h4 : env.genError = some e) :
    sendMessageAndStreamResponse env query sessionId =
      { events := [.embedding_result emb.length, .retrieved_context (rs.map toDocChunkContext)] ++
          env.genFragments.map ChatEvent.llm_chunk ++ [.error genericProcessError e]
        persistAttempts := [], persisted := []
        promptContext := some (formatContext (rs.map toDocChunkContext)), completed := false } := by
  unfold sendMessageAndStreamResponse
  simp only [h1, h2]
  rw [if_neg (length_map_ctx_ne_zero rs h3)]
  simp only [h4]

theorem sendMessage_success (env : ChatEnv) (query : String) (sessionId : Option String)
    (emb : List Int) (rs : List StoredObject)
    (h1 : env.embedResult = .ok emb) (h2 : env.searchResult = .ok rs) (h3 : rs ≠ [])
    (h4 : env.genError = none) :
    sendMessageAndStreamResponse env query sessionId =
      { events := [.embedding_result emb.length, .retrieved_context (rs.map toDocChunkContext)] ++
          env.genFragments.map ChatEvent.llm_chunk ++
          [.llm_sources ((rs.map toDocChunkContext).map toSourceEntry)]
        persistAttempts := [mkChatInteraction env query sessionId rs]
        persisted := if env.persistOk then [mkChatInteraction env query sessionId rs] else []
        promptContext := some (formatContext (rs.map toDocChunkContext)), completed := true } := by
  unfold sendMessageAndStreamResponse
  simp only [h1, h2]
  rw [if_neg (length_map_ctx_ne_zero rs h3)]
  simp only [h4]

/-- C1: a query whose nearest-neighbor search returns zero chunks produces a
`retrieved_context` event carrying an empty list, then exactly one
non-streamed `llm_response` fallback with zero sources, zero `llm_chunk`
events, normal stream completion, and no ChatInteraction record (none is even
attempted). -/
theorem chat_zero_hits_fallback (env : ChatEnv) (query : String) (sessionId : Option String)
    (emb : List Int) (hemb : env.embedResult = .ok emb)
    (hsearch : env.searchResult = .ok []) :
    sendMessageAndStreamResponse env query sessionId =
      { events := [.embedding_result emb.length, .retrieved_context [],
                   .llm_response noContextMessage []]
        persistAttempts := [], persisted := [], promptContext := none, completed := true } :=
  sendMessage_zero env query sessionId emb hemb hsearch

def chatEnvC1 : ChatEnv :=
  { embedResult := .ok [1, 2], searchResult := .ok [], genFragments := [], genError := none
    persistOk := true, chatId := "chat-1", askedAt := "t0" }

theorem chat_zero_hits_fallback_witness :
    sendMessageAndStreamResponse chatEnvC1 "q" none =
      { events := [.embedding_result 2, .retrieved_context [],
                   .llm_response noContextMessage []]
        persistAttempts := [], persisted := [], promptContext := none, completed := true } :=
  chat_zero_hits_fallback chatEnvC1 "q" none [1, 2] rfl rfl

/-- C2: every query stream decomposes as contextual events
(`embedding_result`/`retrieved_context`), then content fragments, then a
single terminal event (`llm_sources`/`error`/`llm_response`), with exactly
one terminal event per request. -/
theorem chat_event_ordering (env : ChatEnv) (query : String) (sessionId : Option String) :
    ∃ pre mids t,
      (sendMessageAndStreamResponse env query sessionId).events = pre ++ (mids ++ [t]) ∧
      (∀ e ∈ pre, e.isContextual = true) ∧
      (∀ e ∈ mids, e.isChunk = true) ∧
      t.isTerminal = true ∧
      (sendMessageAndStreamResponse env query sessionId).events.countP ChatEvent.isTerminal = 1 := by
  cases hemb : env.embedResult with
  | error e =>
    rw [sendMessage_embed_error env query sessionId e hemb]
    exact ⟨[], [], .error genericEmbeddingError e, rfl, by simp, by simp, rfl, rfl⟩
  | ok emb =>
    cases hsearch : env.searchResult with
    | error e =>
      rw [sendMessage_search_error env query sessionId emb e hemb hsearch]
      refine ⟨[.embedding_result emb.length], [], .error genericProcessError e, rfl, ?_, by simp,
        rfl, rfl⟩
      intro ev hev
      rcases List.mem_singleton.1 hev with rfl
      rfl
    | ok rs =>
      by_cases hrs : rs = []
      · subst hrs
        rw [sendMessage_zero env query sessionId emb hemb hsearch]
        refine ⟨[.embedding_result emb.length, .retrieved_context []],
          [], .llm_response noContextMessage [], rfl, ?_, by simp, rfl, rfl⟩
        intro ev hev
        rcases List.mem_cons.1 hev with rfl | hev
        · rfl
        · rcases List.mem_singleton.1 hev with rfl
          rfl
      · cases hgen : env.genError with
        | some e =>
          rw [sendMessage_genError env query sessionId emb rs e hemb hsearch hrs hgen]
          refine ⟨[.embedding_result emb.length, .retrieved_context (rs.map toDocChunkContext)],
            env.genFragments.map ChatEvent.llm_chunk, .error genericProcessError e, by simp, ?_,
            mem_map_chunk_isChunk env.genFragments, rfl, ?_⟩
          · intro ev hev
            rcases List.mem_cons.1 hev with rfl | hev
            · rfl
            · rcases List.mem_singleton.1 hev with rfl
              rfl
          · simp [List.countP_append, countP_terminal_map_chunk, List.countP_cons,
              ChatEvent.isTerminal]
        | none =>
          rw [sendMessage_success env query sessionId emb rs hemb hsearch hrs hgen]
          refine ⟨[.embedding_result emb.length, .retrieved_context (rs.map toDocChunkContext)],
            env.genFragments.map ChatEvent.llm_chunk,
            .llm_sources ((rs.map toDocChunkContext).map toSourceEntry), by simp, ?_,
            mem_map_chunk_isChunk env.genFragments, rfl, ?_⟩
          · intro ev hev
            rcases List.mem_cons.1 hev with rfl | hev
            · rfl
            · rcases List.mem_singleton.1 hev with rfl
              rfl
          · simp [List.countP_append, countP_terminal_map_chunk, List.countP_cons,
              ChatEvent.isTerminal]

def chatEnvC2 : ChatEnv :=
  { embedResult := .ok [1, 2, 3], searchResult := .ok [{ id := "o2", properties := [] }]
    genFragments := ["one", "two"], genError := none, persistOk := true
    chatId := "chat-2", askedAt := "t2" }

theorem chat_event_ordering_witness :
    ∃ pre mids t,
      (sendMessageAndStreamResponse chatEnvC2 "q" none).events = pre ++ (mids ++ [t]) ∧
      (∀ e ∈ pre, e.isContextual = true) ∧
      (∀ e ∈ mids, e.isChunk = true) ∧
      t.isTerminal = true ∧
      (sendMessageAndStreamResponse chatEnvC2 "q" none).events.countP ChatEvent.isTerminal = 1 :=
  chat_event_ordering chatEnvC2 "q" none

def chatObjC3 : StoredObject :=
  { id := "c3-chunk", properties := [("content", .txt ['h', 'i'])] }

def chatEnvC3bad : ChatEnv :=
  { embedResult := .ok [1], searchResult := .ok [chatObjC3], genFragments := [], genError := none
    persistOk := true, chatId := "chat-3", askedAt := "t0" }

/-- C3 counterexample: one retrieved chunk and an error-free generation
stream that yields zero fragments: the stream completes with its terminal
`llm_sources` event but zero `llm_chunk` events, refuting the unconditional
claim that at least one `llm_chunk` is emitted. -/
theorem chat_k_pos_without_chunk_counterexample :
    chatEnvC3bad.genError = none ∧
    (match chatEnvC3bad.searchResult with | .ok rs => rs.length | .error _ => 0) = 1 ∧
    (sendMessageAndStreamResponse chatEnvC3bad "q" none).events.countP ChatEvent.isChunk = 0 ∧
    (sendMessageAndStreamResponse chatEnvC3bad "q" none).completed = true :=
  ⟨rfl, rfl, rfl, rfl⟩

/-- C3 (amended): with k>0 hits, an error-free generation stream that yields
at least one fragment, and an acknowledged interaction write, the stream
emits one `llm_chunk` per fragment (hence at least one), followed by exactly
one `llm_sources` event, and exactly one ChatInteraction is persisted whose
citation count equals the retrieved-chunk count. -/
theorem chat_k_pos_stream_and_persist (env : ChatEnv) (query : String) (sessionId : Option String)
    (emb : List Int) (rs : List StoredObject)
    (hemb : env.embedResult = .ok emb) (hsearch : env.searchResult = .ok rs)
    (hrs : rs ≠ []) (hgen : env.genError = none) (hfrag : env.genFragments ≠ [])
    (hpersist : env.persistOk = true) :
    (sendMessageAndStreamResponse env query sessionId).events =
      [.embedding_result emb.length, .retrieved_context (rs.map toDocChunkContext)] ++
        env.genFragments.map ChatEvent.llm_chunk ++
        [.llm_sources ((rs.map toDocChunkContext).map toSourceEntry)] ∧
    1 ≤ (sendMessageAndStreamResponse env query sessionId).events.countP ChatEvent.isChunk ∧
    ∃ it, (sendMessageAndStreamResponse env query sessionId).persisted = [it] ∧
      it.citations.length = rs.length := by
  rw [sendMessage_success env query sessionId emb rs hemb hsearch hrs hgen]
  refine ⟨rfl, ?_, ?_⟩
  · cases hf : env.genFragments with
    | nil => exact absurd hf hfrag
    | cons f fs =>
      simp [List.countP_append, List.countP_cons, ChatEvent.isChunk]
  · rw [hpersist]
    refine ⟨mkChatInteraction env query sessionId rs, by simp, ?_⟩
    simp [mkChatInteraction]

def chatEnvC3good : ChatEnv :=
  { embedResult := .ok [1], searchResult := .ok [chatObjC3], genFragments := ["Hello", " there"]
    genError := none, persistOk := true, chatId := "chat-3b", askedAt := "t1" }

theorem chat_k_pos_stream_and_persist_witness :
    1 ≤ (sendMessageAndStreamResponse chatEnvC3good "q" none).events.countP ChatEvent.isChunk ∧
    ∃ it, (sendMessageAndStreamResponse chatEnvC3good "q" none).persisted = [it] ∧
      it.citations.length = 1 :=
  ⟨(chat_k_pos_stream_and_persist chatEnvC3good "q" none [1] [chatObjC3] rfl rfl
      (List.cons_ne_nil _ _) rfl (List.cons_ne_nil _ _) rfl).2.1,
    (chat_k_pos_stream_and_persist chatEnvC3good "q" none [1] [chatObjC3] rfl rfl
      (List.cons_ne_nil _ _) rfl (List.cons_ne_nil _ _) rfl).2.2⟩

theorem ingestCatch_ok (env : IngestEnv) (r : List RawDocRecord) (c : List ChunkWrite)
    (m : String) (h : env.updCatch = .ok ()) :
    ingestCatch env r c m =
      { result := .ok ()
        jobUpdates := [processingUpdate, { status := "failed", errorMessage := some m }]
        rawDocs := r, chunks := c } := by
  unfold ingestCatch
  rw [h]

theorem ingestCatch_err (env : IngestEnv) (r : List RawDocRecord) (c : List ChunkWrite)
    (m e : String) (h : env.updCatch = .error e) :
    ingestCatch env r c m =
      { result := .error e, jobUpdates := [processingUpdate], rawDocs := r, chunks := c } := by
  unfold ingestCatch
  rw [h]

theorem ingestCatch_rawDocs (env : IngestEnv) (r : List RawDocRecord) (c : List ChunkWrite)
    (m : String) : (ingestCatch env r c m).rawDocs = r := by
  unfold ingestCatch
  cases env.updCatch <;> rfl

theorem ingestCatch_chunks (env : IngestEnv) (r : List RawDocRecord) (c : List ChunkWrite)
    (m : String) : (ingestCatch env r c m).chunks = c := by
  unfold ingestCatch
  cases env.updCatch <;> rfl

/-- Abbreviation for the extraction-failure branch condition of
`processUrlForIngestion`. -/
def extFailCond (env : IngestEnv) (url : String) : Bool :=
  !(jsTruthyTxt (extractContent env url).rawDocText) ||
    !(jsTruthyStr (extractContent env url).documentTitle)

theorem processUrl_procErr (env : IngestEnv) (url jid e : String)
    (h : env.updProcessing = .error e) :
    processUrlForIngestion env url jid =
      { result := .error e, jobUpdates := [], rawDocs := [], chunks := [] } := by
  unfold processUrlForIngestion
  rw [h]

theorem processUrl_noContent_ok (env : IngestEnv) (url jid : String)
    (h1 : env.updProcessing = .ok ()) (hext : extFailCond env url = true)
    (h2 : env.updNoContent = .ok ()) :
    processUrlForIngestion env url jid =
      { result := .ok ()
        jobUpdates := [processingUpdate, { status := "failed", errorMessage := some noContentMsg }]
        rawDocs := [], chunks := [] } := by
  unfold processUrlForIngestion
  simp only [h1]
  rw [if_pos (by rw [← extFailCond]; exact hext)]
  simp only [h2]

theorem processUrl_noContent_err (env : IngestEnv) (url jid e : String)
    (h1 : env.updProcessing = .ok ()) (hext : extFailCond env url = true)
    (h2 : env.updNoContent = .error e) :
    processUrlForIngestion env url jid = ingestCatch env [] [] e := by
  unfold processUrlForIngestion
  simp only [h1]
  rw [if_pos (by rw [← extFailCond]; exact hext)]
  simp only [h2]

theorem processUrl_rawDoc_err (env : IngestEnv) (url jid e : String)
    (h1 : env.updProcessing = .ok ()) (hext : extFailCond env url = false)
    (h2 : env.createRawDoc = .error e) :
    processUrlForIngestion env url jid = ingestCatch env [] [] e := by
  unfold processUrlForIngestion
  simp only [h1]
  rw [if_neg (by rw [← extFailCond, hext]; simp)]
  simp only [h2]

theorem processUrl_noChunks_ok (env : IngestEnv) (url jid : String)
    (h1 : env.updProcessing = .ok ()) (hext : extFailCond env url = false)
    (h2 : env.createRawDoc = .ok ()) (hch : (ingestChunks env url).isEmpty = true)
    (h3 : env.updNoChunks = .ok ()) :
    processUrlForIngestion env url jid =
      { result := .ok ()
        jobUpdates := [processingUpdate, { status := "failed", errorMessage := some noChunksMsg }]
        rawDocs := [ingestRawDoc env url jid], chunks := [] } := by
  unfold processUrlForIngestion
  simp only [h1]
  rw [if_neg (by rw [← extFailCond, hext]; simp)]
  simp only [h2]
  rw [if_pos hch]
  simp only [h3]

theorem processUrl_noChunks_err (env : IngestEnv) (url jid e : String)
    (h1 : env.updProcessing = .ok ()) (hext : extFailCond env url = false)
    (h2 : env.createRawDoc = .ok ()) (hch : (ingestChunks env url).isEmpty = true)
    (h3 : env.updNoChunks = .error e) :
    processUrlForIngestion env url jid = ingestCatch env [ingestRawDoc env url jid] [] e := by
  unfold processUrlForIngestion
  simp only [h1]
  rw [if_neg (by rw [← extFailCond, hext]; simp)]
  simp only [h2]
  rw [if_pos hch]
  simp only [h3]

theorem processUrl_embedFail_ok (env : IngestEnv) (url jid : String)
    (h1 : env.updProcessing = .ok ()) (hext : extFailCond env url = false)
    (h2 : env.createRawDoc = .ok ()) (hch : (ingestChunks env url).isEmpty = false)
    (hge : generateEmbeddings env (ingestChunks env url) = none)
    (h3 : env.updEmbedFail = .ok ()) :
    processUrlForIngestion env url jid =
      { result := .ok ()
        jobUpdates := [processingUpdate, { status := "failed", errorMessage := some embedFailMsg }]
        rawDocs := [ingestRawDoc env url jid], chunks := [] } := by
  unfold processUrlForIngestion
  simp only [h1]
  rw [if_neg (by rw [← extFailCond, hext]; simp)]
  simp only [h2]
  rw [if_neg (by rw [hch]; simp)]
  simp only [hge, h3]

theorem processUrl_embedFail_err (env : IngestEnv) (url jid e : String)
    (h1 : env.updProcessing = .ok ()) (hext : extFailCond env url = false)
    (h2 : env.createRawDoc = .ok ()) (hch : (ingestChunks env url).isEmpty = false)
    (hge : generateEmbeddings env (ingestChunks env url) = none)
    (h3 : env.updEmbedFail = .error e) :
    processUrlForIngestion env url jid = ingestCatch env [ingestRawDoc env url jid] [] e := by
  unfold processUrlForIngestion
  simp only [h1]
  rw [if_neg (by rw [← extFailCond, hext]; simp)]
  simp only [h2]
  rw [if_neg (by rw [hch]; simp)]
  simp only [hge, h3]

theorem processUrl_mismatch_ok (env : IngestEnv) (url jid : String) (vs : List Vec)
    (h1 : env.updProcessing = .ok ()) (hext : extFailCond env url = false)
    (h2 : env.createRawDoc = .ok ()) (hch : (ingestChunks env url).isEmpty = false)
    (hge : generateEmbeddings env (ingestChunks env url) = some vs)
    (hlen : vs.length ≠ (ingestChunks env url).length)
    (h3 : env.updEmbedFail = .ok ()) :
    processUrlForIngestion env url jid =
      { result := .ok ()
        jobUpdates := [processingUpdate, { status := "failed", errorMessage := some embedFailMsg }]
        rawDocs := [ingestRawDoc env url jid], chunks := [] } := by
  unfold processUrlForIngestion
  simp only [h1]
  rw [if_neg (by rw [← extFailCond, hext]; simp)]
  simp only [h2]
  rw [if_neg (by rw [hch]; simp)]
  simp only [hge]
  rw [if_pos hlen]
  simp only [h3]

theorem processUrl_mismatch_err (env : IngestEnv) (url jid e : String) (vs : List Vec)
    (h1 : env.updProcessing = .ok ()) (hext : extFailCond env url = false)
    (h2 : env.createRawDoc = .ok ()) (hch : (ingestChunks env url).isEmpty = false)
    (hge : generateEmbeddings env (ingestChunks env url) = some vs)
    (hlen : vs.length ≠ (ingestChunks env url).length)
    (h3 : env.updEmbedFail = .error e) :
    processUrlForIngestion env url jid = ingestCatch env [ingestRawDoc env url jid] [] e := by
  unfold processUrlForIngestion
  simp only [h1]
  rw [if_neg (by rw [← extFailCond, hext]; simp)]
  simp only [h2]
  rw [if_neg (by rw [hch]; simp)]
  simp only [hge]
  rw [if_pos hlen]
  simp only [h3]

theorem processUrl_success (env : IngestEnv) (url jid : String) (vs : List Vec)
    (h1 : env.updProcessing = .ok ()) (hext : extFailCond env url = false)
    (h2 : env.createRawDoc = .ok ()) (hch : (ingestChunks env url).isEmpty = false)
    (hge : generateEmbeddings env (ingestChunks env url) = some vs)
    (hlen : vs.length = (ingestChunks env url).length)
    (hfail : ingestChunkFailures env url = [])
    (h3 : env.updCompleted = .ok ()) :
    processUrlForIngestion env url jid =
      { result := .ok ()
        jobUpdates := [processingUpdate, completedUpdate]
        rawDocs := [ingestRawDoc env url jid]
        chunks := ingestChunkWrites env url jid vs } := by
  unfold processUrlForIngestion
  simp only [h1]
  rw [if_neg (by rw [← extFailCond, hext]; simp)]
  simp only [h2]
  rw [if_neg (by rw [hch]; simp)]
  simp only [hge]
  rw [if_neg (fun hne => hne hlen)]
  simp only [hfail, h3]

theorem processUrl_completed_err (env : IngestEnv) (url jid e : String) (vs : List Vec)
    (h1 : env.updProcessing = .ok ()) (hext : extFailCond env url = false)
    (h2 : env.createRawDoc = .ok ()) (hch : (ingestChunks env url).isEmpty = false)
    (hge : generateEmbeddings env (ingestChunks env url) = some vs)
    (hlen : vs.length = (ingestChunks env url).length)
    (hfail : ingestChunkFailures env url = [])
    (h3 : env.updCompleted = .error e) :
    processUrlForIngestion env url jid =
      ingestCatch env [ingestRawDoc env url jid] (ingestChunkWrites env url jid vs) e := by
  unfold processUrlForIngestion
  simp only [h1]
  rw [if_neg (by rw [← extFailCond, hext]; simp)]
  simp only [h2]
  rw [if_neg (by rw [hch]; simp)]
  simp only [hge]
  rw [if_neg (fun hne => hne hlen)]
  simp only [hfail, h3]

theorem processUrl_chunkFail (env : IngestEnv) (url jid e : String) (es : List String)
    (vs : List Vec)
    (h1 : env.updProcessing = .ok ()) (hext : extFailCond env url = false)
    (h2 : env.createRawDoc = .ok ()) (hch : (ingestChunks env url).isEmpty = false)
    (hge : generateEmbeddings env (ingestChunks env url) = some vs)
    (hlen : vs.length = (ingestChunks env url).length)
    (hfail : ingestChunkFailures env url = e :: es) :
    processUrlForIngestion env url jid =
      ingestCatch env [ingestRawDoc env url jid] (ingestChunkWrites env url jid vs) e := by
  unfold processUrlForIngestion
  simp only [h1]
  rw [if_neg (by rw [← extFailCond, hext]; simp)]
  simp only [h2]
  rw [if_neg (by rw [hch]; simp)]
  simp only [hge]
  rw [if_neg (fun hne => hne hlen)]
  simp only [hfail]

theorem rawdocs_shape (env : IngestEnv) (url jid : String) :
    ((processUrlForIngestion env url jid).rawDocs = [] ∨
      (processUrlForIngestion env url jid).rawDocs = [ingestRawDoc env url jid]) ∧
    (extFailCond env url = true →
      (processUrlForIngestion env url jid).rawDocs = [] ∧
      (processUrlForIngestion env url jid).chunks = []) := by
  cases h1 : env.updProcessing with
  | error e =>
    rw [processUrl_procErr env url jid e h1]
    exact ⟨Or.inl rfl, fun _ => ⟨rfl, rfl⟩⟩
  | ok u =>
    cases u
    cases hext : extFailCond env url with
    | true =>
      cases h2 : env.updNoContent with
      | ok u2 =>
        cases u2
        rw [processUrl_noContent_ok env url jid h1 hext h2]
        exact ⟨Or.inl rfl, fun _ => ⟨rfl, rfl⟩⟩
      | error e =>
        rw [processUrl_noContent_err env url jid e h1 hext h2]
        exact ⟨Or.inl (ingestCatch_rawDocs env [] [] e),
          fun _ => ⟨ingestCatch_rawDocs env [] [] e, ingestCatch_chunks env [] [] e⟩⟩
    | false =>
      refine ⟨?_, fun hc => absurd hc (by simp)⟩
      cases h2 : env.createRawDoc with
      | error e =>
        rw [processUrl_rawDoc_err env url jid e h1 hext h2]
        exact Or.inl (ingestCatch_rawDocs env [] [] e)
      | ok u2 =>
        cases u2
        cases hch : (ingestChunks env url).isEmpty with
        | true =>
          cases h3 : env.updNoChunks with
          | ok u3 =>
            cases u3
            rw [processUrl_noChunks_ok env url jid h1 hext h2 hch h3]
            exact Or.inr (by simp)
          | error e =>
            rw [processUrl_noChunks_err env url jid e h1 hext h2 hch h3]
            exact Or.inr (ingestCatch_rawDocs env _ [] e)
        | false =>
          cases hge : generateEmbeddings env (ingestChunks env url) with
          | none =>
            cases h3 : env.updEmbedFail with
            | ok u3 =>
              cases u3
              rw [processUrl_embedFail_ok env url jid h1 hext h2 hch hge h3]
              exact Or.inr (by simp)
            | error e =>
              rw [processUrl_embedFail_err env url jid e h1 hext h2 hch hge h3]
              exact Or.inr (ingestCatch_rawDocs env _ [] e)
          | some vs =>
            by_cases hlen : vs.length = (ingestChunks env url).length
            · cases hfail : ingestChunkFailures env url with
              | nil =>
                cases h3 : env.updCompleted with
                | ok u3 =>
                  cases u3
                  rw [processUrl_success env url jid vs h1 hext h2 hch hge hlen hfail h3]
                  exact Or.inr (by simp)
                | error e =>
                  rw [processUrl_completed_err env url jid e vs h1 hext h2 hch hge hlen hfail h3]
                  exact Or.inr (ingestCatch_rawDocs env _ _ e)
              | cons e es =>
                rw [processUrl_chunkFail env url jid e es vs h1 hext h2 hch hge hlen hfail]
                exact Or.inr (ingestCatch_rawDocs env _ _ e)
            · cases h3 : env.updEmbedFail with
              | ok u3 =>
                cases u3
                rw [processUrl_mismatch_ok env url jid vs h1 hext h2 hch hge hlen h3]
                exact Or.inr (by simp)
              | error e =>
                rw [processUrl_mismatch_err env url jid e vs h1 hext h2 hch hge hlen h3]
                exact Or.inr (ingestCatch_rawDocs env _ [] e)

theorem chunks_shape (env : IngestEnv) (url jid : String) :
    (processUrlForIngestion env url jid).chunks = [] ∨
      ∃ vs, (processUrlForIngestion env url jid).chunks = ingestChunkWrites env url jid vs := by
  cases h1 : env.updProcessing with
  | error e =>
    rw [processUrl_procErr env url jid e h1]
    exact Or.inl rfl
  | ok u =>
    cases u
    cases hext : extFailCond env url with
    | true =>
      cases h2 : env.updNoContent with
      | ok u2 =>
        cases u2
        rw [processUrl_noContent_ok env url jid h1 hext h2]
        exact Or.inl rfl
      | error e =>
        rw [processUrl_noContent_err env url jid e h1 hext h2]
        exact Or.inl (ingestCatch_chunks env [] [] e)
    | false =>
      cases h2 : env.createRawDoc with
      | error e =>
        rw [processUrl_rawDoc_err env url jid e h1 hext h2]
        exact Or.inl (ingestCatch_chunks env [] [] e)
      | ok u2 =>
        cases u2
        cases hch : (ingestChunks env url).isEmpty with
        | true =>
          cases h3 : env.updNoChunks with
          | ok u3 =>
            cases u3
            rw [processUrl_noChunks_ok env url jid h1 hext h2 hch h3]
            exact Or.inl rfl
          | error e =>
            rw [processUrl_noChunks_err env url jid e h1 hext h2 hch h3]
            exact Or.inl (ingestCatch_chunks env _ [] e)
        | false =>
          cases hge : generateEmbeddings env (ingestChunks env url) with
          | none =>
            cases h3 : env.updEmbedFail with
            | ok u3 =>
              cases u3
              rw [processUrl_embedFail_ok env url jid h1 hext h2 hch hge h3]
              exact Or.inl rfl
            | error e =>
              rw [processUrl_embedFail_err env url jid e h1 hext h2 hch hge h3]
              exact Or.inl (ingestCatch_chunks env _ [] e)
          | some vs =>
            by_cases hlen : vs.length = (ingestChunks env url).length
            · cases hfail : ingestChunkFailures env url with
              | nil =>
                cases h3 : env.updCompleted with
                | ok u3 =>
                  cases u3
                  rw [processUrl_success env url jid vs h1 hext h2 hch hge hlen hfail h3]
                  exact Or.inr ⟨vs, by simp⟩
                | error e =>
                  rw [processUrl_completed_err env url jid e vs h1 hext h2 hch hge hlen hfail h3]
                  exact Or.inr ⟨vs, ingestCatch_chunks env _ _ e⟩
              | cons e es =>
                rw [processUrl_chunkFail env url jid e es vs h1 hext h2 hch hge hlen hfail]
                exact Or.inr ⟨vs, ingestCatch_chunks env _ _ e⟩
            · cases h3 : env.updEmbedFail with
              | ok u3 =>
                cases u3
                rw [processUrl_mismatch_ok env url jid vs h1 hext h2 hch hge hlen h3]
                exact Or.inl rfl
              | error e =>
                rw [processUrl_mismatch_err env url jid e vs h1 hext h2 hch hge hlen h3]
                exact Or.inl (ingestCatch_chunks env _ [] e)

set_option maxRecDepth 4000 in
theorem chunker_zero_iff_blank_size_overlap_witness :
    chunkText (' ' :: '\n' :: [' ']) = [] ∧
    chunkText ('h' :: 'i' :: [' ', 'x']) ≠ [] ∧
    (('h' :: 'i' :: [' ', 'x'] : Str)).length ≤ chunkSize ∧
    carriesLink chunkOverlap
      (mergeLoopW chunkSize chunkOverlap ([] : Str)
        (List.replicate 7 (List.replicate 150 'a')) [] 0)
      (mergeLoopC chunkSize chunkOverlap ([] : Str)
        (List.replicate 7 (List.replicate 150 'a')) [] 0) :=
  ⟨(chunker_zero_iff_blank_size_overlap.1 _).2 (by decide),
    fun h => (by decide : ¬trim ('h' :: 'i' :: [' ', 'x']) = [])
      ((chunker_zero_iff_blank_size_overlap.1 _).1 h),
    chunker_zero_iff_blank_size_overlap.2.1 ('h' :: 'i' :: [' ', 'x'])
      ('h' :: 'i' :: [' ', 'x']) (by decide),
    (chunker_zero_iff_blank_size_overlap.2.2
      (List.replicate 7 (List.replicate 150 'a'))).2⟩

/-- C5 (amended): a RawDocument is created at most once per job, and only if
extraction succeeds; a job failing at extraction (e.g. a timeout, observed as
missing content/title) has neither RawDocument nor Chunk records.  Creation
happens before chunking, so a job that fails because no chunks were generated
retains its already-created RawDocument (see the counterexample). -/
theorem rawdoc_at_most_once_extraction_gated (env : IngestEnv) (url jid : String) :
    (processUrlForIngestion env url jid).rawDocs.length ≤ 1 ∧
    (extFailCond env url = true →
      (processUrlForIngestion env url jid).rawDocs = [] ∧
      (processUrlForIngestion env url jid).chunks = []) := by
  rcases rawdocs_shape env url jid with ⟨hs, hv⟩
  refine ⟨?_, hv⟩
  rcases hs with h | h <;> rw [h] <;> simp

def ingestEnvC5 : IngestEnv :=
  { pdfContent := none
    htmlArticle := some { content := some [' '], title := some "Whitespace page", url := none }
    apiKey := true, embedDocumentsResult := .ok []
    updProcessing := .ok (), createRawDoc := .ok ()
    chunkCreate := fun _ => .ok ()
    updNoContent := .ok (), updNoChunks := .ok (), updEmbedFail := .ok ()
    updCompleted := .ok (), updCatch := .ok ()
    rawDocId := "rd5", chunkIdOf := fun i => "c5-" ++ toString i
    freshIdOf := fun i => "f5-" ++ toString i }

/-- C5 counterexample: extraction succeeds (whitespace-only content is truthy),
the RawDoc record is created, then chunking yields zero chunks and the job
ends Failed — so a job Failed for want of chunks retains a RawDocument,
refuting creation only if chunking succeeds. -/
theorem rawdoc_survives_failed_chunking_counterexample :
    (processUrlForIngestion ingestEnvC5 "http://host/blank" "job5").jobUpdates.getLast? =
      some { status := "failed", errorMessage := some noChunksMsg } ∧
    (processUrlForIngestion ingestEnvC5 "http://host/blank" "job5").rawDocs.length = 1 :=
  ⟨by decide, by decide⟩

def ingestEnvC5w : IngestEnv := { ingestEnvC5 with htmlArticle := none }

theorem rawdoc_at_most_once_extraction_gated_witness :
    (processUrlForIngestion ingestEnvC5w "http://host/u" "job5w").rawDocs = [] ∧
    (processUrlForIngestion ingestEnvC5w "http://host/u" "job5w").chunks = [] :=
  (rawdoc_at_most_once_extraction_gated ingestEnvC5w "http://host/u" "job5w").2 (by decide)

def ingestEnvC8 : IngestEnv :=
  { ingestEnvC5 with
    updProcessing := .error "updateObject failed: connect ECONNREFUSED 127.0.0.1:8080" }

/-- C8 counterexample: an exception thrown by the markProcessing status write
escapes `processUrlForIngestion` (and the worker rethrows it): no Failed job
is recorded, refuting the claim that no exception ever propagates out of the
processing path. -/
theorem coordinator_exception_escapes_counterexample :
    (processUrlForIngestion ingestEnvC8 "http://host/x" "job8").result =
      .error "updateObject failed: connect ECONNREFUSED 127.0.0.1:8080" ∧
    (processUrlForIngestion ingestEnvC8 "http://host/x" "job8").jobUpdates = [] ∧
    processJob ingestEnvC8 "ingestUrl" "http://host/x" "job8" =
      .error "updateObject failed: connect ECONNREFUSED 127.0.0.1:8080" :=
  ⟨rfl, rfl, rfl⟩

/-- C8 (amended): provided the job-status store writes themselves succeed,
every failure of a downstream stage inside the processing path is caught and
recorded as a terminal Completed/Failed job with a message, and no exception
leaves `processUrlForIngestion`; an exception from a job-status write itself
propagates out (see the counterexample). -/
theorem coordinator_catches_when_status_writes_succeed (env : IngestEnv) (url jid : String)
    (h1 : env.updProcessing = .ok ()) (h2 : env.updNoContent = .ok ())
    (h3 : env.updNoChunks = .ok ()) (h4 : env.updEmbedFail = .ok ())
    (h5 : env.updCompleted = .ok ()) (h6 : env.updCatch = .ok ()) :
    (processUrlForIngestion env url jid).result = .ok () ∧
    ∃ u, (processUrlForIngestion env url jid).jobUpdates.getLast? = some u ∧
      (u = completedUpdate ∨ (u.status = "failed" ∧ u.errorMessage.isSome = true)) := by
  cases hext : extFailCond env url with
  | true =>
    rw [processUrl_noContent_ok env url jid h1 hext h2]
    exact ⟨rfl, _, rfl, Or.inr ⟨rfl, rfl⟩⟩
  | false =>
    cases hrd : env.createRawDoc with
    | error e =>
      rw [processUrl_rawDoc_err env url jid e h1 hext hrd, ingestCatch_ok env [] [] e h6]
      exact ⟨rfl, _, rfl, Or.inr ⟨rfl, rfl⟩⟩
    | ok u2 =>
      cases u2
      cases hch : (ingestChunks env url).isEmpty with
      | true =>
        rw [processUrl_noChunks_ok env url jid h1 hext hrd hch h3]
        exact ⟨rfl, _, rfl, Or.inr ⟨rfl, rfl⟩⟩
      | false =>
        cases hge : generateEmbeddings env (ingestChunks env url) with
        | none =>
          rw [processUrl_embedFail_ok env url jid h1 hext hrd hch hge h4]
          exact ⟨rfl, _, rfl, Or.inr ⟨rfl, rfl⟩⟩
        | some vs =>
          by_cases hlen : vs.length = (ingestChunks env url).length
          · cases hfail : ingestChunkFailures env url with
            | nil =>
              rw [processUrl_success env url jid vs h1 hext hrd hch hge hlen hfail h5]
              exact ⟨rfl, _, rfl, Or.inl rfl⟩
            | cons e es =>
              rw [processUrl_chunkFail env url jid e es vs h1 hext hrd hch hge hlen hfail,
                ingestCatch_ok env _ _ e h6]
              exact ⟨rfl, _, rfl, Or.inr ⟨rfl, rfl⟩⟩
          · rw [processUrl_mismatch_ok env url jid vs h1 hext hrd hch hge hlen h4]
            exact ⟨rfl, _, rfl, Or.inr ⟨rfl, rfl⟩⟩

def ingestEnvC8w : IngestEnv := { ingestEnvC5 with createRawDoc := .error "store create failed" }

theorem coordinator_catches_when_status_writes_succeed_witness :
    (processUrlForIngestion ingestEnvC8w "http://host/x" "job8w").result = .ok () ∧
    ∃ u, (processUrlForIngestion ingestEnvC8w "http://host/x" "job8w").jobUpdates.getLast? =
        some u ∧ (u = completedUpdate ∨ (u.status = "failed" ∧ u.errorMessage.isSome = true)) :=
  coordinator_catches_when_status_writes_succeed ingestEnvC8w "http://host/x" "job8w"
    rfl rfl rfl rfl rfl rfl

/-- C4: batch embedding is atomic and positionally aligned: an external error
(or missing key) fails the whole non-empty batch with no partial result; a
successful batch is exactly the external result; and in the pipeline, a batch
failure or an output count different from the chunk count marks the job
Failed with no chunk written, while a matching count stores chunk `i` with
vector `embeddings[i]`. -/
theorem embedding_batch_atomic_aligned (env : IngestEnv) (url jid : String) :
    (∀ (chunks : List Str) (e : String), env.embedDocumentsResult = .error e → chunks ≠ [] →
      generateEmbeddings env chunks = none) ∧
    (∀ (chunks : List Str) (vs : List Vec), generateEmbeddings env chunks = some vs →
      chunks ≠ [] → env.embedDocumentsResult = .ok vs) ∧
    (env.updProcessing = .ok () → extFailCond env url = false → env.createRawDoc = .ok () →
      (ingestChunks env url).isEmpty = false → env.updEmbedFail = .ok () →
      ((generateEmbeddings env (ingestChunks env url) = none →
          (processUrlForIngestion env url jid).jobUpdates.getLast? =
            some { status := "failed", errorMessage := some embedFailMsg } ∧
          (processUrlForIngestion env url jid).chunks = []) ∧
        (∀ vs, generateEmbeddings env (ingestChunks env url) = some vs →
          vs.length ≠ (ingestChunks env url).length →
          (processUrlForIngestion env url jid).jobUpdates.getLast? =
            some { status := "failed", errorMessage := some embedFailMsg } ∧
          (processUrlForIngestion env url jid).chunks = []) ∧
        (∀ vs, generateEmbeddings env (ingestChunks env url) = some vs →
          vs.length = (ingestChunks env url).length →
          (∀ i, exceptOk (env.chunkCreate i) = true) →
          env.updCompleted = .ok () →
          (processUrlForIngestion env url jid).chunks =
            (ingestChunks env url).enum.map
              (mkDocChunkWrite env jid (ingestChunkUrl env url) (ingestTitle env url) vs)))) := by
  refine ⟨?_, ?_, ?_⟩
  · intro chunks e hemb hne
    unfold generateEmbeddings
    rw [if_neg (by simpa [List.isEmpty_iff] using hne)]
    cases hk : env.apiKey with
    | false => simp
    | true => simp [hemb]
  · intro chunks vs hsome hne
    unfold generateEmbeddings at hsome
    rw [if_neg (by simpa [List.isEmpty_iff] using hne)] at hsome
    cases hk : env.apiKey with
    | false =>
      rw [hk] at hsome
      simp at hsome
    | true =>
      rw [hk] at hsome
      simp only [Bool.not_true, Bool.false_eq_true, if_false] at hsome
      cases hr : env.embedDocumentsResult with
      | ok vs2 =>
        simp only [hr, Option.some.injEq] at hsome
        rw [hsome]
      | error e =>
        simp only [hr] at hsome
        exact absurd hsome (by simp)
  · intro hp hext hrd hch hef
    refine ⟨?_, ?_, ?_⟩
    · intro hge
      rw [processUrl_embedFail_ok env url jid hp hext hrd hch hge hef]
      exact ⟨rfl, rfl⟩
    · intro vs hge hlen
      rw [processUrl_mismatch_ok env url jid vs hp hext hrd hch hge hlen hef]
      exact ⟨rfl, rfl⟩
    · intro vs hge hlen hok hcomp
      have hfail : ingestChunkFailures env url = [] := by
        unfold ingestChunkFailures
        refine List.filterMap_eq_nil_iff.2 ?_
        intro p _
        cases hcc : env.chunkCreate p.1 with
        | ok u => simp
        | error e =>
          have := hok p.1
          rw [hcc] at this
          exact absurd this (by simp [exceptOk])
      have hw : ingestChunkWrites env url jid vs =
          (ingestChunks env url).enum.map
            (mkDocChunkWrite env jid (ingestChunkUrl env url) (ingestTitle env url) vs) := by
        unfold ingestChunkWrites
        rw [List.filter_eq_self.2 (fun p _ => hok p.1)]
      rw [processUrl_success env url jid vs hp hext hrd hch hge hlen hfail hcomp]
      simp [hw]

def ingestEnvOk : IngestEnv :=
  { pdfContent := none
    htmlArticle := some { content := some ['a'], title := some "Doc Title", url := none }
    apiKey := true, embedDocumentsResult := .ok [[2]]
    updProcessing := .ok (), createRawDoc := .ok ()
    chunkCreate := fun _ => .ok ()
    updNoContent := .ok (), updNoChunks := .ok (), updEmbedFail := .ok ()
    updCompleted := .ok (), updCatch := .ok ()
    rawDocId := "rd1", chunkIdOf := fun i => "ch-" ++ toString i
    freshIdOf := fun i => "fr-" ++ toString i }

theorem embedding_batch_atomic_aligned_witness :
    (processUrlForIngestion ingestEnvOk "http://host/doc" "job-ok").chunks =
      (ingestChunks ingestEnvOk "http://host/doc").enum.map
        (mkDocChunkWrite ingestEnvOk "job-ok" (ingestChunkUrl ingestEnvOk "http://host/doc")
          (ingestTitle ingestEnvOk "http://host/doc") [[2]]) :=
  ((embedding_batch_atomic_aligned ingestEnvOk "http://host/doc" "job-ok").2.2 rfl (by decide)
      rfl (by decide) rfl).2.2 [[2]] (by decide) (by decide) (fun i => rfl) rfl

/-- C6 (code bug): the `DocChunk` schema declares an ordinal `chunkIndex`
property ("Order within the document"), but the pipeline persists every chunk
with only chunkId/docId/jobId/text/url/docTitle: no ordinal index is written,
so chunk order within a document is not recorded in the store. -/
theorem chunk_records_lack_ordinal_index :
    "chunkIndex" ∈ docChunkSchemaPropertyNames ∧
    (∀ (cid rid jid : String) (t : Str) (u dt : String),
      (mkChunkProperties cid rid jid t u dt).map Prod.fst =
        ["chunkId", "docId", "jobId", "text", "url", "docTitle"] ∧
      (mkChunkProperties cid rid jid t u dt).lookup "chunkIndex" = none) ∧
    (∀ (env : IngestEnv) (url jid : String),
      ∀ c ∈ (processUrlForIngestion env url jid).chunks,
        c.properties.lookup "chunkIndex" = none) := by
  refine ⟨by decide, fun _ _ _ _ _ _ => ⟨rfl, rfl⟩, ?_⟩
  intro env url jid c hc
  rcases chunks_shape env url jid with h | ⟨vs, h⟩
  · rw [h] at hc
    cases hc
  · rw [h] at hc
    unfold ingestChunkWrites at hc
    rcases List.mem_map.1 hc with ⟨p, _, rfl⟩
    rfl

def chunkC6 : ChunkWrite :=
  mkDocChunkWrite ingestEnvOk "job-ok" (ingestChunkUrl ingestEnvOk "http://host/doc")
    (ingestTitle ingestEnvOk "http://host/doc") [[2]] (0, ['a'])

theorem chunk_records_lack_ordinal_index_witness :
    chunkC6.properties.lookup "chunkIndex" = none ∧
    "chunkIndex" ∈ docChunkSchemaPropertyNames :=
  ⟨chunk_records_lack_ordinal_index.2.2 ingestEnvOk "http://host/doc" "job-ok" chunkC6
      (by decide),
    chunk_records_lack_ordinal_index.1⟩

/-- C7: a chunk written by the ingestion pipeline stores its data under the
property names `text`/`url`/`docTitle` (and stores no page number), while the
query engine reads `content`/`sourceUrl`/`sourceTitle`/`pageNumber`: all four
retrieved fields are undefined, the sources entries built from such chunks
carry no title/url/page, and the composed prompt context carries no chunk
text (it is the same as for contexts with no content at all). -/
theorem ingested_chunk_fields_absent :
    (∀ (oid cid rid jid : String) (t : Str) (u dt : String),
      toDocChunkContext { id := oid, properties := mkChunkProperties cid rid jid t u dt } =
        { id := oid, content := none, sourceUrl := none, sourceTitle := none,
          pageNumber := none }) ∧
    (∀ (oid cid rid jid : String) (t : Str) (u dt : String),
      toSourceEntry
          (toDocChunkContext { id := oid, properties := mkChunkProperties cid rid jid t u dt }) =
        { id := oid, title := none, url := none, pageNumber := none }) ∧
    (∀ objs : List StoredObject,
      (∀ o ∈ objs, ∃ cid rid jid t u dt, o.properties = mkChunkProperties cid rid jid t u dt) →
      formatContext (objs.map toDocChunkContext) =
        formatContext (objs.map (fun o =>
          { id := o.id, content := none, sourceUrl := none, sourceTitle := none,
            pageNumber := none }))) := by
  refine ⟨fun _ _ _ _ _ _ _ => rfl, fun _ _ _ _ _ _ _ => rfl, ?_⟩
  intro objs hobjs
  congr 1
  apply List.map_congr_left
  intro o hmem
  rcases hobjs o hmem with ⟨cid, rid, jid, t, u, dt, hprops⟩
  show toDocChunkContext o = _
  unfold toDocChunkContext getField
  rw [hprops]
  rfl

def storedC7 : StoredObject :=
  { id := "obj-7"
    properties := mkChunkProperties "ck7" "rd7" "job7" ['t', 'x'] "http://host/doc" "Doc Title" }

theorem ingested_chunk_fields_absent_witness :
    formatContext ([storedC7].map toDocChunkContext) =
      formatContext ([storedC7].map (fun o =>
        { id := o.id, content := none, sourceUrl := none, sourceTitle := none,
          pageNumber := none })) :=
  ingested_chunk_fields_absent.2.2 [storedC7]
    (fun o ho => by
      rcases List.mem_singleton.1 ho with rfl
      exact ⟨"ck7", "rd7", "job7", ['t', 'x'], "http://host/doc", "Doc Title", rfl⟩)

/-- C10 (amended): the user-visible `message` field of every chat error event
is one of two fixed generic strings, but the internal exception message is
forwarded verbatim alongside it in the `details` field; likewise a Failed
ingestion job records the thrown store-write message verbatim as its
user-queryable `errorMessage`.  So messages are generic, yet internal detail
is forwarded rather than withheld. -/
theorem error_generic_message_but_verbatim_details :
    (∀ (env : ChatEnv) (q : String) (sid : Option String) (m d : String),
      ChatEvent.error m d ∈ (sendMessageAndStreamResponse env q sid).events →
      (m = genericProcessError ∨ m = genericEmbeddingError) ∧ d ∈ env.errorDetails) ∧
    (∀ (env : IngestEnv) (url jid m : String),
      env.updProcessing = .ok () →
      jsTruthyTxt (extractContent env url).rawDocText = true →
      jsTruthyStr (extractContent env url).documentTitle = true →
      env.createRawDoc = .error m → env.updCatch = .ok () →
      (processUrlForIngestion env url jid).jobUpdates.getLast? =
        some { status := "failed", errorMessage := some m }) := by
  constructor
  · intro env q sid m d hmem
    cases hemb : env.embedResult with
    | error e =>
      rw [sendMessage_embed_error env q sid e hemb] at hmem
      simp only [List.mem_singleton] at hmem
      injection hmem with hm hd
      subst hm
      subst hd
      exact ⟨Or.inr rfl, by simp [ChatEnv.errorDetails, hemb]⟩
    | ok emb =>
      cases hsearch : env.searchResult with
      | error e =>
        rw [sendMessage_search_error env q sid emb e hemb hsearch] at hmem
        simp only [List.mem_cons, List.not_mem_nil, or_false] at hmem
        rcases hmem with heq | heq
        · exact absurd heq (by simp)
        · injection heq with hm hd
          subst hm
          subst hd
          exact ⟨Or.inl rfl, by simp [ChatEnv.errorDetails, hemb, hsearch]⟩
      | ok rs =>
        by_cases hrs : rs = []
        · subst hrs
          rw [sendMessage_zero env q sid emb hemb hsearch] at hmem
          simp at hmem
        · cases hgen : env.genError with
          | some e =>
            rw [sendMessage_genError env q sid emb rs e hemb hsearch hrs hgen] at hmem
            simp at hmem
            rcases hmem with ⟨rfl, rfl⟩
            exact ⟨Or.inl rfl, by simp [ChatEnv.errorDetails, hemb, hsearch, hgen]⟩
          | none =>
            rw [sendMessage_success env q sid emb rs hemb hsearch hrs hgen] at hmem
            simp at hmem
  · intro env url jid m h1 htxt htitle hrd hcatch
    have hext : extFailCond env url = false := by
      unfold extFailCond
      rw [htxt, htitle]
      rfl
    rw [processUrl_rawDoc_err env url jid m h1 hext hrd, ingestCatch_ok env [] [] m hcatch]
    rfl

def chatEnvC10 : ChatEnv :=
  { embedResult := .error "ECONNREFUSED 10.1.2.3:443 google-genai embedContent stack"
    searchResult := .ok [], genFragments := [], genError := none, persistOk := true
    chatId := "chat-10", askedAt := "t0" }

/-- C10 counterexample: the internal embedding exception message is forwarded
verbatim to the caller in the `details` field of the terminal error event,
refuting the claim that internal exception detail is never forwarded. -/
theorem internal_detail_forwarded_counterexample :
    (sendMessageAndStreamResponse chatEnvC10 "q" none).events =
      [.error genericEmbeddingError "ECONNREFUSED 10.1.2.3:443 google-genai embedContent stack"] :=
  rfl

theorem error_generic_message_but_verbatim_details_witness :
    (genericEmbeddingError = genericProcessError ∨ genericEmbeddingError = genericEmbeddingError) ∧
    "ECONNREFUSED 10.1.2.3:443 google-genai embedContent stack" ∈ chatEnvC10.errorDetails :=
  error_generic_message_but_verbatim_details.1 chatEnvC10 "q" none genericEmbeddingError
    "ECONNREFUSED 10.1.2.3:443 google-genai embedContent stack" (by decide)

end TaxRag
